import Mathlib

/-!
Typed serialization layer and amounts of `ripple_SerializedTypes.h`.

A shallow embedding of `modules/ripple_data/protocol/ripple_SerializedTypes.h`.

* `uint64` values are natural numbers below `2 ^ 64`; arithmetic that can leave that range is
  reduced modulo `2 ^ 64` where it happens.
* `int` values (`mOffset`) are integers.
* `uint160` is a block of twenty raw octets.
* A `Serializer` is the list of octets appended so far.
* A `throw` is the `Except.error` branch of the result.

Member functions whose bodies are not part of the header (`canonicalize`, `add`, `construct`,
`divide`, `operator==` of amounts, the operations of `Serializer`) are modelled from the
specification text and say so in their doc comment.
-/

namespace Ripple

/-! ## Octets, identifiers, fields -/

/-- One octet of a serialized buffer. -/
abbrev Byte := Fin 256

/-- The octet holding the low eight bits of `n`. -/
def byteOf (n : Nat) : Byte := ⟨n % 256, Nat.mod_lt n (by decide)⟩

/-- The class `uint160` (declared outside this header): a 160-bit identifier kept as its twenty
raw octets. -/
structure uint160 where
  bytes : List Byte
  size_eq : bytes.length = 20
deriving DecidableEq

/-- Member `uint160::isZero()`, also `operator!`: every octet is zero. -/
def uint160.isZero (u : uint160) : Bool := u.bytes.all (fun b => b == 0)

/-- Constant `u160_zero(0)` (line 29): the all-zero identifier, used as `CURRENCY_XRP` and
`ACCOUNT_XRP`. -/
def u160_zero : uint160 := ⟨List.replicate 20 0, by simp⟩

/-- Constant `CURRENCY_XRP` (line 34). -/
def CURRENCY_XRP : uint160 := u160_zero

/-- Constant `ACCOUNT_XRP` (line 37). -/
def ACCOUNT_XRP : uint160 := u160_zero

/-- Modelled from the spec: the field identity `SField` is declared outside this header; §3 gives
it as `(type_id, field_value, name)` (the default policy plays no part here). -/
structure SField where
  fieldType : Nat
  fieldValue : Nat
  fieldName : String
deriving DecidableEq

/-- Modelled from the spec: `sfGeneric`, the sentinel field a value has when none is given
(`SerializedType() : fName(&sfGeneric)`, line 43); its declaration is outside this header. -/
def sfGeneric : SField := ⟨0, 0, "Generic"⟩

/-- What an operation of this layer can throw. -/
inductive Failure where
  /-- A `std::runtime_error` thrown by inline code of the header, with its message. -/
  | runtime_error (what : String)
  /-- Canonicalization or arithmetic left the representable band (spec §7). -/
  | AmountOverflow
  /-- A serialized amount that breaks the wire rules (spec §7). -/
  | MalformedAmount
  /-- Buffer underrun during deserialization (spec §7). -/
  | TruncatedInput
  /-- A path element whose type mask has invalid bits (spec §7). -/
  | MalformedPath
  /-- A binary operation on amounts that are not comparable (spec §7). -/
  | AmountTypeMismatch
  /-- The divisor mantissa is zero (spec §7). -/
  | AmountDivideByZero
  /-- A variable-length payload longer than 918744 octets (spec §7). -/
  | InvalidLength
deriving DecidableEq

/-! ## `STAmount` -/

/-- Constant `STAmount::cMinOffset` (line 218). -/
def cMinOffset : Int := -96
/-- Constant `STAmount::cMaxOffset` (line 218). -/
def cMaxOffset : Int := 80
/-- Constant `STAmount::cMinValue` (line 219). -/
def cMinValue : Nat := 1000000000000000
/-- Constant `STAmount::cMaxValue` (line 219). -/
def cMaxValue : Nat := 9999999999999999
/-- Constant `STAmount::cMaxNative` (line 220). -/
def cMaxNative : Nat := 9000000000000000000
/-- Constant `STAmount::cMaxNativeN` (line 221): max native value on network. -/
def cMaxNativeN : Nat := 100000000000000000
/-- Constant `STAmount::cNotNative` (line 222). -/
def cNotNative : Nat := 0x8000000000000000
/-- Constant `STAmount::cPosNative` (line 223). -/
def cPosNative : Nat := 0x4000000000000000

/-- The data members of `STAmount` (lines 434-440) together with the `fName` of its base class
`SerializedType` (line 83). -/
structure STAmount where
  fName : SField
  mCurrency : uint160
  mIssuer : uint160
  mValue : Nat
  mOffset : Int
  mIsNative : Bool
  mIsNegative : Bool
deriving DecidableEq

namespace STAmount

/-- Constructor `STAmount(uint64 v = 0, bool isNeg = false)` (lines 227-228). The identifiers are
default-constructed, taken to leave them zero (line 435: the issuer is 0 for XRP). -/
def ofUInt64 (v : Nat) (isNeg : Bool) : STAmount :=
  let a : STAmount :=
    { fName := sfGeneric, mCurrency := u160_zero, mIssuer := u160_zero,
      mValue := v, mOffset := 0, mIsNative := true, mIsNegative := isNeg }
  if v = 0 then { a with mIsNegative := false } else a

/-- Constructor `STAmount(SField::ref n, uint64 v = 0, bool isNeg = false)` (lines 230-232); the
body is empty. -/
def ofFieldUInt64 (n : SField) (v : Nat) (isNeg : Bool) : STAmount :=
  { fName := n, mCurrency := u160_zero, mIssuer := u160_zero,
    mValue := v, mOffset := 0, mIsNative := true, mIsNegative := isNeg }

/-- Member `isNative()` (line 309). -/
def isNative (a : STAmount) : Bool := a.mIsNative
/-- Member `isZero()` (line 310). -/
def isZero (a : STAmount) : Bool := a.mValue == 0
/-- Member `isNonZero()` (line 311). -/
def isNonZero (a : STAmount) : Bool := a.mValue != 0
/-- Member `isNegative()` (line 312). -/
def isNegative (a : STAmount) : Bool := a.mIsNegative && !a.isZero
/-- Member `isPositive()` (line 313). -/
def isPositive (a : STAmount) : Bool := !a.mIsNegative && !a.isZero
/-- Member `isGEZero()` (line 314). -/
def isGEZero (a : STAmount) : Bool := !a.mIsNegative
/-- Member `isLegalNet()` (line 315). -/
def isLegalNet (a : STAmount) : Bool := !a.mIsNative || decide (a.mValue < cMaxNativeN)

/-- Member `zero()` (line 319). -/
def zero (a : STAmount) : STAmount :=
  { a with mOffset := if a.mIsNative then 0 else -100, mValue := 0, mIsNegative := false }

/-- Member `zero(const STAmount& saTmpl)` (lines 322-323). -/
def zeroFrom (a saTmpl : STAmount) : STAmount :=
  zero { a with mCurrency := saTmpl.mCurrency, mIssuer := saTmpl.mIssuer,
                mIsNative := saTmpl.mIsNative }

/-- Member `zero(const uint160& uCurrencyID, const uint160& uIssuerID)` (lines 324-325). -/
def zeroWith (a : STAmount) (uCurrencyID uIssuerID : uint160) : STAmount :=
  zero { a with mCurrency := uCurrencyID, mIssuer := uIssuerID,
                mIsNative := uCurrencyID.isZero }

/-- The first loop of issued canonicalization (spec §4.4, step 3): while the mantissa is below
`cMinValue` and the exponent above `cMinOffset`, multiply the mantissa by ten (in `uint64`) and
decrement the exponent. The first argument bounds the number of rounds; `canonicalize` passes the
distance of the exponent to `cMinOffset`, which the loop cannot outrun. -/
def scaleUp : Nat → Nat → Int → Nat × Int
  | 0, v, off => (v, off)
  | n + 1, v, off =>
    if v < cMinValue ∧ off > cMinOffset then scaleUp n (v * 10 % 2 ^ 64) (off - 1) else (v, off)

/-- The second loop of issued canonicalization (spec §4.4, step 3): while the mantissa is above
`cMaxValue`, divide it by ten and increment the exponent. The first argument bounds the number of
rounds; `canonicalize` passes the mantissa itself, which shrinks in every round. The exponent is
an unbounded integer: an `int` could overflow here only from its maximum, far above
`cMaxOffset`. -/
def scaleDown : Nat → Nat → Int → Nat × Int
  | 0, v, off => (v, off)
  | n + 1, v, off =>
    if v > cMaxValue then scaleDown n (v / 10) (off + 1) else (v, off)

/-- Modelled from the spec: `STAmount::canonicalize()` is declared in the header (line 442) and
its body is not part of it. This follows §4.4 "Canonical form", steps 1 to 3, in the order the
text gives them. The amount is native exactly when its currency is zero (§3, and the member
comments on lines 434 and 439): the constructors that call `canonicalize` do not set `mIsNative`
themselves. An amount "treated as zero" gets the zero form of step 2. The amount whose exponent
is below `cMinOffset` after normalization is the one that cannot be brought into the mantissa
band with an exponent of at least `cMinOffset`: the first loop stops at `cMinOffset`, so such an
amount leaves the loops with an exponent below `cMinOffset` or with a mantissa still below
`cMinValue`, and in both cases it is treated as zero. This is the reading under which
`canonicalize` gives the internal form the header states on lines 205-210 and §4.4 asks for
("the amount must satisfy §3 invariants via canonicalize"). -/
def canonicalize (a : STAmount) : Except Failure STAmount :=
  if a.mCurrency.isZero then
    let a1 : STAmount :=
      { a with mIsNative := true, mIssuer := u160_zero,
               mIsNegative := if a.mValue = 0 then false else a.mIsNegative }
    if a1.mValue ≤ cMaxNative then .ok a1 else .error .AmountOverflow
  else if a.mValue = 0 then
    .ok { a with mIsNative := false, mOffset := -100, mIsNegative := false }
  else
    let up := scaleUp (a.mOffset - cMinOffset).toNat a.mValue a.mOffset
    let dn := scaleDown up.1 up.1 up.2
    if dn.2 < cMinOffset ∨ dn.1 < cMinValue then
      .ok { a with mIsNative := false, mValue := 0, mOffset := -100, mIsNegative := false }
    else if dn.2 > cMaxOffset then
      .error .AmountOverflow
    else
      .ok { a with mIsNative := false, mValue := dn.1, mOffset := dn.2 }

/-- Constructor `STAmount(const uint160& uCurrencyID, const uint160& uIssuerID, uint64 uV = 0,
int iOff = 0, bool bNegative = false)` (lines 237-240). `mIsNative` is not initialised by the
constructor; `canonicalize` assigns it. -/
def ofIssued (uCurrencyID uIssuerID : uint160) (uV : Nat) (iOff : Int) (bNegative : Bool) :
    Except Failure STAmount :=
  canonicalize
    { fName := sfGeneric, mCurrency := uCurrencyID, mIssuer := uIssuerID,
      mValue := uV, mOffset := iOff, mIsNative := false, mIsNegative := bNegative }

end STAmount

/-! ## Serializer and wire form of an amount -/

/-- Modelled from the spec: the class `Serializer` is declared outside this header; §4.2 gives it
as a byte buffer that every operation appends to. -/
abbrev Serializer := List Byte

/-- The eight octets of a 64-bit word, most significant first. -/
def be64 (w : Nat) : List Byte :=
  [byteOf (w >>> 56), byteOf (w >>> 48), byteOf (w >>> 40), byteOf (w >>> 32),
   byteOf (w >>> 24), byteOf (w >>> 16), byteOf (w >>> 8), byteOf w]

/-- Modelled from the spec: `Serializer::add64`, declared outside this header; §4.2: appends
the value big-endian. -/
def Serializer.add64 (s : Serializer) (w : Nat) : Serializer := s ++ be64 w

/-- Modelled from the spec: `Serializer::add160`, declared outside this header; §4.2: appends
the raw octets. -/
def Serializer.add160 (s : Serializer) (u : uint160) : Serializer := s ++ u.bytes

namespace STAmount

/-- Modelled from the spec: the 64-bit header word that `STAmount::add` writes; `add` is declared
in the header (line 296) and its body is not part of it. §4.4 "Wire encoding": bit 63
(`cNotNative`) for an issued amount, bit 62 (`cPosNative`) for a non-negative one, the exponent
plus 97 from bit 54 up and the mantissa in the low bits for an issued amount, the mantissa in the
low bits for a native one, and `cPosNative` alone for native zero. The parts are combined with
bitwise or in `uint64`. (The comment on lines 212-214 of the header speaks of an older layout,
offset plus 142 in the high 8 bits; the constants on lines 222-223 are those of the layout
in the spec.) -/
def wireHeader (a : STAmount) : Nat :=
  if a.mIsNative then
    if a.mValue = 0 then cPosNative
    else ((if a.mIsNegative then 0 else cPosNative) ||| a.mValue) % 2 ^ 64
  else
    (cNotNative ||| (if a.mIsNegative then 0 else cPosNative)
      ||| (((a.mOffset + 97) % 2 ^ 64).toNat <<< 54) ||| a.mValue) % 2 ^ 64

/-- Modelled from the spec: `STAmount::add(Serializer&)`, declared on line 296 without a body.
§4.4 "Wire encoding": the header word, then the currency and the issuer (20 octets each) when
the amount is issued, nothing more when it is native. -/
def add (a : STAmount) (s : Serializer) : Serializer :=
  if a.mIsNative then s.add64 a.wireHeader
  else ((s.add64 a.wireHeader).add160 a.mCurrency).add160 a.mIssuer

/-- What the header word of a serialized amount says. -/
structure HeaderFields where
  isNative : Bool
  isNegative : Bool
  mOffset : Int
  mValue : Nat
deriving DecidableEq

/-- Modelled from the spec: the reading of the header word in `STAmount::construct`, declared on
line 444 without a body. §4.4 "Decoding inverts this; enforces §3 invariants" and §7
`MalformedAmount`: bit 63 tells issued from native and bit 62 the sign; an issued header carries
the exponent plus 97 in bits 61..54 and the mantissa in bits 53..0, and is malformed when a
non-zero mantissa or its exponent is out of band; a native header carries the mantissa in its low
62 bits. A zero mantissa gives the zero form of §3. -/
def decodeHeader (h : Nat) : Except Failure HeaderFields :=
  if h.testBit 63 then
    let value := h % 2 ^ 54
    let offset : Int := ((h >>> 54) % 256 : Nat) - 97
    if value = 0 then
      .ok { isNative := false, isNegative := false, mOffset := -100, mValue := 0 }
    else if cMinValue ≤ value ∧ value ≤ cMaxValue ∧ cMinOffset ≤ offset ∧ offset ≤ cMaxOffset then
      .ok { isNative := false, isNegative := !h.testBit 62, mOffset := offset, mValue := value }
    else
      .error .MalformedAmount
  else
    let value := h % 2 ^ 62
    if value = 0 then
      .ok { isNative := true, isNegative := false, mOffset := 0, mValue := 0 }
    else if value ≤ cMaxNative then
      .ok { isNative := true, isNegative := !h.testBit 62, mOffset := 0, mValue := value }
    else
      .error .MalformedAmount

end STAmount

/-! ## Path elements, paths and path sets -/

/-- The base class `SerializedType` (lines 40-87): its only data member is the field it is
serialized under. A value of exactly this class is a not-present value. -/
structure SerializedType where
  fName : SField
deriving DecidableEq

/-- The data members of `STPathElement` (lines 686-689). -/
structure STPathElement where
  mType : Nat
  mAccountID : uint160
  mCurrencyID : uint160
  mIssuerID : uint160
deriving DecidableEq

namespace STPathElement

/-- Enumerator `typeEnd` (line 641). -/
def typeEnd : Nat := 0x00
/-- Enumerator `typeAccount` (line 642): rippling through an account (vs taking an offer). -/
def typeAccount : Nat := 0x01
/-- Enumerator `typeCurrency` (line 643): currency follows. -/
def typeCurrency : Nat := 0x10
/-- Enumerator `typeIssuer` (line 644): issuer follows. -/
def typeIssuer : Nat := 0x20
/-- Enumerator `typeBoundary` (line 645): boundary between alternate paths. -/
def typeBoundary : Nat := 0xFF
/-- Enumerator `typeValidBits` (lines 646-650): bits that may be non-zero. -/
def typeValidBits : Nat := typeAccount ||| typeCurrency ||| typeIssuer

/-- Constructor `STPathElement(uAccountID, uCurrencyID, uIssuerID, forceCurrency = false)`
(lines 654-662). -/
def ofIDs (uAccountID uCurrencyID uIssuerID : uint160) (forceCurrency : Bool) : STPathElement :=
  { mType :=
      (if uAccountID.isZero then 0 else typeAccount)
      ||| (if uCurrencyID.isZero && !forceCurrency then 0 else typeCurrency)
      ||| (if uIssuerID.isZero then 0 else typeIssuer),
    mAccountID := uAccountID, mCurrencyID := uCurrencyID, mIssuerID := uIssuerID }

/-- Constructor `STPathElement(uType, uAccountID, uCurrencyID, uIssuerID)` (lines 664-668). -/
def ofType (uType : Nat) (uAccountID uCurrencyID uIssuerID : uint160) : STPathElement :=
  { mType := uType, mAccountID := uAccountID, mCurrencyID := uCurrencyID,
    mIssuerID := uIssuerID }

/-- Member `getNodeType()` (line 670). -/
def getNodeType (e : STPathElement) : Nat := e.mType
/-- Member `isOffer()` (line 671). -/
def isOffer (e : STPathElement) : Bool := e.mAccountID.isZero
/-- Member `isAccount()` (line 672). -/
def isAccount (e : STPathElement) : Bool := !e.isOffer

end STPathElement

/-- The data member of `STPath` (line 725). -/
structure STPath where
  mPath : List STPathElement
deriving DecidableEq

/-- The class `STPathSet` (lines 764-807): a `SerializedType` holding a vector of paths. -/
structure STPathSet extends SerializedType where
  value : List STPath
deriving DecidableEq

/-- Modelled from the spec: `SerializerIterator::get160`, declared outside this header; §4.2: a
primitive read takes its octets and advances, and an underrun fails with `TruncatedInput`. The
iterator is the list of octets not yet read. -/
def get160 (sit : List Byte) : Except Failure (uint160 × List Byte) :=
  if h : 20 ≤ sit.length then
    .ok (⟨sit.take 20, by rw [List.length_take]; omega⟩, sit.drop 20)
  else .error .TruncatedInput

/-- Reads a 160-bit id when the flag is set and gives the zero id otherwise, as the parser of
§4.5 does for each of account, currency and issuer ("read only those 20-byte fields whose bits
are set"). -/
def readID (flag : Bool) (sit : List Byte) : Except Failure (uint160 × List Byte) :=
  if flag then get160 sit else .ok (u160_zero, sit)

namespace STPathSet

/-- The octets of one hop (spec §4.5): the type mask, then the 20-octet fields the mask
indicates, in the order account, currency, issuer. -/
def emitElement (e : STPathElement) : List Byte :=
  byteOf e.mType ::
    ((if e.mType &&& STPathElement.typeAccount ≠ 0 then e.mAccountID.bytes else [])
      ++ (if e.mType &&& STPathElement.typeCurrency ≠ 0 then e.mCurrencyID.bytes else [])
      ++ (if e.mType &&& STPathElement.typeIssuer ≠ 0 then e.mIssuerID.bytes else []))

/-- The octets of the hops of one path, in order. -/
def emitPath : List STPathElement → List Byte
  | [] => []
  | e :: es => emitElement e ++ emitPath es

/-- The octets of a sequence of paths (spec §4.5): after the last hop of a path comes
`BOUNDARY (0xFF)` if another path follows, else `END (0x00)`. -/
def emitPaths : List STPath → List Byte
  | [] => []
  | [p] => emitPath p.mPath ++ [byteOf STPathElement.typeEnd]
  | p :: q :: ps =>
    emitPath p.mPath ++ [byteOf STPathElement.typeBoundary] ++ emitPaths (q :: ps)

/-- Modelled from the spec: `STPathSet::add(Serializer&)`, declared on line 781 without a body;
§4.5 "Wire format". -/
def add (ps : STPathSet) (s : Serializer) : Serializer := s ++ emitPaths ps.value

/-- The loop of the parser of §4.5: read a type mask; `0x00` ends the current path and the set;
`0xFF` ends the current path and starts a new one; otherwise a mask with a bit outside
`typeValidBits` is a `MalformedPath`, and else the fields whose bits are set are read and the hop
is added to the current path. The first argument bounds the number of masks read; `construct`
passes the number of octets at hand, and every round takes at least one. -/
def constructLoop :
    Nat → List Byte → List STPath → List STPathElement → Except Failure (List STPath × List Byte)
  | 0, _, _, _ => .error .TruncatedInput
  | _ + 1, [], _, _ => .error .TruncatedInput
  | n + 1, b :: sit, paths, path =>
    if b.val = STPathElement.typeEnd then .ok (paths ++ [⟨path⟩], sit)
    else if b.val = STPathElement.typeBoundary then constructLoop n sit (paths ++ [⟨path⟩]) []
    else if b.val &&& (0xFF ^^^ STPathElement.typeValidBits) ≠ 0 then .error .MalformedPath
    else
      match readID (b.val &&& STPathElement.typeAccount != 0) sit with
      | .error err => .error err
      | .ok (uAccountID, sit1) =>
        match readID (b.val &&& STPathElement.typeCurrency != 0) sit1 with
        | .error err => .error err
        | .ok (uCurrency, sit2) =>
          match readID (b.val &&& STPathElement.typeIssuer != 0) sit2 with
          | .error err => .error err
          | .ok (uIssuerID, sit3) =>
            constructLoop n sit3 paths (path ++ [⟨b.val, uAccountID, uCurrency, uIssuerID⟩])

/-- Modelled from the spec: `STPathSet::construct(SerializerIterator&, SField::ref)`, declared on
line 806 without a body, which `deserialize` (lines 775-778) returns; §4.5 "On parse". The result
carries the octets left unread. -/
def construct (sit : List Byte) (name : SField) : Except Failure (STPathSet × List Byte) :=
  match constructLoop sit.length sit [] [] with
  | .error err => .error err
  | .ok (paths, rest) => .ok ({ fName := name, value := paths }, rest)

end STPathSet

/-- The hops the round trip of a path set is stated for: the type mask is non-zero, has no bit
outside `typeValidBits`, and an id that the mask does not flag is zero. -/
def STPathElement.canonical (e : STPathElement) : Prop :=
  e.mType ≠ 0 ∧ e.mType &&& STPathElement.typeValidBits = e.mType ∧
  (e.mType &&& STPathElement.typeAccount = 0 → e.mAccountID = u160_zero) ∧
  (e.mType &&& STPathElement.typeCurrency = 0 → e.mCurrencyID = u160_zero) ∧
  (e.mType &&& STPathElement.typeIssuer = 0 → e.mIssuerID = u160_zero)

/-- The number of type masks and markers in the octets of a sequence of paths: one per hop and
one per path. -/
def STPathSet.maskCount : List STPath → Nat
  | [] => 0
  | p :: ps => p.mPath.length + 1 + maskCount ps

/-! ## The typed values -/

/-- The class `uint128` (declared outside this header): sixteen raw octets. -/
structure uint128 where
  bytes : List Byte
  size_eq : bytes.length = 16
deriving DecidableEq

/-- Member `uint128::isZero()`: every octet is zero. -/
def uint128.isZero (u : uint128) : Bool := u.bytes.all (fun b => b == 0)

/-- The class `uint256` (declared outside this header): thirty-two raw octets. -/
structure uint256 where
  bytes : List Byte
  size_eq : bytes.length = 32
deriving DecidableEq

/-- Member `uint256::isZero()`: every octet is zero. -/
def uint256.isZero (u : uint256) : Bool := u.bytes.all (fun b => b == 0)

/-- Modelled from the spec: the enumeration `SerializedTypeID` is declared outside this header;
these are the enumerators the header returns from `getSType()`, one per variant of §3. -/
inductive SerializedTypeID where
  | STI_NOTPRESENT
  | STI_UINT8
  | STI_UINT16
  | STI_UINT32
  | STI_UINT64
  | STI_AMOUNT
  | STI_HASH128
  | STI_HASH160
  | STI_HASH256
  | STI_VL
  | STI_ACCOUNT
  | STI_PATHSET
  | STI_VECTOR256
deriving DecidableEq

/-- The four octets of a 32-bit word, most significant first. -/
def be32 (w : Nat) : List Byte :=
  [byteOf (w >>> 24), byteOf (w >>> 16), byteOf (w >>> 8), byteOf w]

/-- Modelled from the spec: `Serializer::add32`, declared outside this header; §4.2: appends
the value big-endian. -/
def Serializer.add32 (s : Serializer) (w : Nat) : Serializer := s ++ be32 w

/-- Modelled from the spec: `Serializer::addFieldID`, declared outside this header; §4.2
"Field-id": one octet `(T<<4)|F` when both are below 16; `(T<<4), F` when only `T` is; `F, T`
when only `F` is; `0x00, T, F` when neither is. -/
def Serializer.addFieldID (s : Serializer) (type name : Nat) : Serializer :=
  if type < 16 then
    if name < 16 then s ++ [byteOf ((type <<< 4) ||| name)]
    else s ++ [byteOf (type <<< 4), byteOf name]
  else
    if name < 16 then s ++ [byteOf name, byteOf type]
    else s ++ [0x00, byteOf type, byteOf name]

/-- Modelled from the spec: `Serializer::addVL`, declared outside this header; §4.2 "Length prefix
(VL)": one octet for a length up to 192, two up to 12480, three up to 918744, a failure beyond;
then the octets themselves. -/
def Serializer.addVL (s : Serializer) (v : List Byte) : Except Failure Serializer :=
  if v.length ≤ 192 then
    .ok (s ++ [byteOf v.length] ++ v)
  else if v.length ≤ 12480 then
    .ok (s ++ [byteOf (((v.length - 193) >>> 8) + 193), byteOf ((v.length - 193) &&& 0xFF)] ++ v)
  else if v.length ≤ 918744 then
    .ok (s ++ [byteOf (((v.length - 12481) >>> 16) + 241),
               byteOf (((v.length - 12481) >>> 8) &&& 0xFF),
               byteOf ((v.length - 12481) &&& 0xFF)] ++ v)
  else .error .InvalidLength

/-- The class `STUInt8` (lines 93-119). -/
structure STUInt8 extends SerializedType where
  value : Nat
deriving DecidableEq

/-- The class `STUInt16` (lines 121-147). -/
structure STUInt16 extends SerializedType where
  value : Nat
deriving DecidableEq

/-- The class `STUInt32` (lines 149-175). -/
structure STUInt32 extends SerializedType where
  value : Nat
deriving DecidableEq

/-- The class `STUInt64` (lines 177-203). -/
structure STUInt64 extends SerializedType where
  value : Nat
deriving DecidableEq

/-- The class `STHash128` (lines 483-511). -/
structure STHash128 extends SerializedType where
  value : uint128
deriving DecidableEq

/-- The class `STHash160` (lines 513-541). -/
structure STHash160 extends SerializedType where
  value : uint160
deriving DecidableEq

/-- The class `STHash256` (lines 543-571). -/
structure STHash256 extends SerializedType where
  value : uint256
deriving DecidableEq

/-- The class `STVariableLength` (lines 574-603); `Blob` is a vector of octets. -/
structure STVariableLength extends SerializedType where
  value : List Byte
deriving DecidableEq

/-- The class `STAccount` (lines 605-629), a `STVariableLength`. -/
structure STAccount extends STVariableLength
deriving DecidableEq

/-- The class `STVector256` (lines 844-883). -/
structure STVector256 extends SerializedType where
  mValue : List uint256
deriving DecidableEq

/-- Member `STUInt8::getSType()` (line 102). -/
def STUInt8.getSType (_ : STUInt8) : SerializedTypeID := .STI_UINT8
/-- Member `STUInt8::isDefault()` (line 112). -/
def STUInt8.isDefault (x : STUInt8) : Bool := x.value == 0
/-- Member `STUInt16::getSType()` (line 130). -/
def STUInt16.getSType (_ : STUInt16) : SerializedTypeID := .STI_UINT16
/-- Member `STUInt16::isDefault()` (line 140). -/
def STUInt16.isDefault (x : STUInt16) : Bool := x.value == 0
/-- Member `STUInt32::getSType()` (line 158). -/
def STUInt32.getSType (_ : STUInt32) : SerializedTypeID := .STI_UINT32
/-- Member `STUInt32::add(Serializer&)` (line 161). -/
def STUInt32.add (x : STUInt32) (s : Serializer) : Serializer := s.add32 x.value
/-- Member `STUInt32::isDefault()` (line 168). -/
def STUInt32.isDefault (x : STUInt32) : Bool := x.value == 0
/-- Member `STUInt64::getSType()` (line 186). -/
def STUInt64.getSType (_ : STUInt64) : SerializedTypeID := .STI_UINT64
/-- Member `STUInt64::add(Serializer&)` (line 189). -/
def STUInt64.add (x : STUInt64) (s : Serializer) : Serializer := s.add64 x.value
/-- Member `STUInt64::isDefault()` (line 196). -/
def STUInt64.isDefault (x : STUInt64) : Bool := x.value == 0
/-- Member `STAmount::getSType()` (line 292). -/
def STAmount.getSType (_ : STAmount) : SerializedTypeID := .STI_AMOUNT
/-- Member `STAmount::isDefault()` (line 338). -/
def STAmount.isDefault (a : STAmount) : Bool :=
  (a.mValue == 0) && a.mIssuer.isZero && a.mCurrency.isZero
/-- Member `STHash128::getSType()` (line 495). -/
def STHash128.getSType (_ : STHash128) : SerializedTypeID := .STI_HASH128
/-- Member `STHash128::isDefault()` (line 504). -/
def STHash128.isDefault (x : STHash128) : Bool := x.value.isZero
/-- Member `STHash160::getSType()` (line 525). -/
def STHash160.getSType (_ : STHash160) : SerializedTypeID := .STI_HASH160
/-- Member `STHash160::add(Serializer&)` (line 527). -/
def STHash160.add (x : STHash160) (s : Serializer) : Serializer := s.add160 x.value
/-- Member `STHash160::isDefault()` (line 534). -/
def STHash160.isDefault (x : STHash160) : Bool := x.value.isZero
/-- Member `STHash256::getSType()` (line 555). -/
def STHash256.getSType (_ : STHash256) : SerializedTypeID := .STI_HASH256
/-- Member `STHash256::isDefault()` (line 564). -/
def STHash256.isDefault (x : STHash256) : Bool := x.value.isZero
/-- Member `STVariableLength::getSType()` (line 585). -/
def STVariableLength.getSType (_ : STVariableLength) : SerializedTypeID := .STI_VL
/-- Member `STVariableLength::add(Serializer&)` (line 587); `addVL` throws on a payload that is
too long. -/
def STVariableLength.add (x : STVariableLength) (s : Serializer) : Except Failure Serializer :=
  s.addVL x.value
/-- Member `STVariableLength::isDefault()` (line 596). -/
def STVariableLength.isDefault (x : STVariableLength) : Bool := x.value.isEmpty
/-- Member `STAccount::getSType()` (line 616). -/
def STAccount.getSType (_ : STAccount) : SerializedTypeID := .STI_ACCOUNT
/-- Member `isDefault()` of a `STAccount`, inherited from `STVariableLength` (line 596). -/
def STAccount.isDefault (x : STAccount) : Bool := x.toSTVariableLength.isDefault
/-- Member `STPathSet::getSType()` (line 784). -/
def STPathSet.getSType (_ : STPathSet) : SerializedTypeID := .STI_PATHSET
/-- Member `STPathSet::isDefault()` (line 793). -/
def STPathSet.isDefault (x : STPathSet) : Bool := x.value.isEmpty
/-- Member `STVector256::getSType()` (line 852). -/
def STVector256.getSType (_ : STVector256) : SerializedTypeID := .STI_VECTOR256
/-- Member `STVector256::isDefault()` (line 861). -/
def STVector256.isDefault (x : STVector256) : Bool := x.mValue.isEmpty

/-- A reference `const SerializedType&`: the object referred to is of one of the classes of the
header. -/
inductive SerializedRef where
  | notPresent (x : SerializedType)
  | uint8 (x : STUInt8)
  | uint16 (x : STUInt16)
  | uint32 (x : STUInt32)
  | uint64 (x : STUInt64)
  | amount (x : STAmount)
  | hash128 (x : STHash128)
  | hash160 (x : STHash160)
  | hash256 (x : STHash256)
  | vl (x : STVariableLength)
  | account (x : STAccount)
  | pathSet (x : STPathSet)
  | vector256 (x : STVector256)
deriving DecidableEq

/-- The virtual call `t.getSType()` through a reference. -/
def SerializedRef.getSType : SerializedRef → SerializedTypeID
  | .notPresent _ => .STI_NOTPRESENT
  | .uint8 x => x.getSType
  | .uint16 x => x.getSType
  | .uint32 x => x.getSType
  | .uint64 x => x.getSType
  | .amount x => x.getSType
  | .hash128 x => x.getSType
  | .hash160 x => x.getSType
  | .hash256 x => x.getSType
  | .vl x => x.getSType
  | .account x => x.getSType
  | .pathSet x => x.getSType
  | .vector256 x => x.getSType

namespace SerializedType

/-- Member `getSType()` of the base class (line 56). -/
def getSType (_ : SerializedType) : SerializedTypeID := .STI_NOTPRESENT
/-- Member `getText()` of the base class (lines 60-61): just the value. -/
def getText (_ : SerializedType) : String := ""
/-- Member `add(Serializer&)` of the base class (line 65). -/
def add (_ : SerializedType) (s : Serializer) : Serializer := s
/-- Member `isEquivalent(const SerializedType& t)` of the base class (lines 67-68). -/
def isEquivalent (_ : SerializedType) (t : SerializedRef) : Bool :=
  t.getSType == .STI_NOTPRESENT
/-- Member `addFieldID(Serializer&)` (line 70), which every derived class inherits. -/
def addFieldID (x : SerializedType) (s : Serializer) : Serializer :=
  s.addFieldID x.fName.fieldType x.fName.fieldValue
/-- Member `operator==(const SerializedType& t)` (lines 74-75) on an object of the base
class. -/
def eq (x : SerializedType) (t : SerializedRef) : Bool :=
  (x.getSType == t.getSType) && x.isEquivalent t
/-- Member `operator!=(const SerializedType& t)` (lines 76-77) on an object of the base
class. -/
def ne (x : SerializedType) (t : SerializedRef) : Bool :=
  (x.getSType != t.getSType) || !x.isEquivalent t
/-- Member `isDefault()` of the base class (line 79). -/
def isDefault (_ : SerializedType) : Bool := true

end SerializedType

/-! ## Comparison and division of amounts -/

namespace STAmount

/-- Modelled from the spec: `STAmount::isComparable`, declared on line 346 without a body; §4.4
"Comparison": native-to-native always; issued-to-issued iff currencies match. -/
def isComparable (a t : STAmount) : Bool :=
  if a.mIsNative then t.mIsNative
  else if t.mIsNative then false
  else a.mCurrency == t.mCurrency

/-- Modelled from the spec: `STAmount::operator==`, declared on line 340 without a body; §4.4
"Comparison" and §7: a comparison of amounts that are not comparable fails with
`AmountTypeMismatch`; comparable amounts are equal when they have the same sign and the same
magnitude, which is the mantissa for native amounts and exponent and mantissa for issued ones.
The issuer takes no part. -/
def eq (a t : STAmount) : Except Failure Bool :=
  if a.isComparable t then
    .ok ((a.mIsNegative == t.mIsNegative) && (a.mValue == t.mValue)
      && (a.mIsNative || (a.mOffset == t.mOffset)))
  else .error .AmountTypeMismatch

/-- Modelled from the spec: `STAmount::divide(v1, v2, uCurrencyID, uIssuerID)`, declared on line
369 without a body; §4.4 "Division": a zero divisor mantissa fails with `AmountDivideByZero`;
otherwise the dividend mantissa is shifted up by 17 decimal digits and divided by the divisor
mantissa (a 128 by 64 bit division, whose quotient is kept whole here), and the result is
canonicalized with exponent `expA - expB - 17`, the sign being the XOR of the signs and currency
and issuer those of the unit. -/
def divide (v1 v2 : STAmount) (uCurrencyID uIssuerID : uint160) : Except Failure STAmount :=
  if v2.mValue = 0 then .error .AmountDivideByZero
  else
    canonicalize
      { fName := sfGeneric, mCurrency := uCurrencyID, mIssuer := uIssuerID,
        mValue := v1.mValue * 10 ^ 17 / v2.mValue, mOffset := v1.mOffset - v2.mOffset - 17,
        mIsNative := false, mIsNegative := v1.mIsNegative != v2.mIsNegative }

/-- Member `divide(v1, v2, saUnit)` (lines 370-371). -/
def divideUnit (v1 v2 saUnit : STAmount) : Except Failure STAmount :=
  divide v1 v2 saUnit.mCurrency saUnit.mIssuer

/-- Member `divide(v1, v2)` (lines 372-373). -/
def divideSelf (v1 v2 : STAmount) : Except Failure STAmount :=
  divideUnit v1 v2 v1

end STAmount

/-! ## Accessors and mutators of an amount -/

/-- The value of an integer after conversion to a signed type of `w` bits (two-complement,
wrapping modulo `2 ^ w`). -/
def wrapSigned (w : Nat) (x : Int) : Int := (x + 2 ^ (w - 1)) % 2 ^ w - 2 ^ (w - 1)

/-- The value of `static_cast<uint64>(x)`: `x` modulo `2 ^ 64`. -/
def toUInt64 (x : Int) : Nat := (x % 2 ^ 64).toNat

/-- The exception of `getNValue` and `setNValue` (lines 302-303):
`std::runtime_error("not native")`. -/
def notNative : Failure := Failure.runtime_error ("not native")

namespace STAmount

/-- Member `getNValue()` (line 302). -/
def getNValue (a : STAmount) : Except Failure Nat :=
  if !a.mIsNative then .error notNative else .ok a.mValue

/-- Member `setNValue(uint64 v)` (line 303): what the call returns or throws, and the amount
after the call. -/
def setNValue (a : STAmount) (v : Nat) : Except Failure Unit × STAmount :=
  if !a.mIsNative then (.error notNative, a) else (.ok (), { a with mValue := v })

/-- Member `negate()` (line 318). -/
def negate (a : STAmount) : STAmount :=
  if !a.isZero then { a with mIsNegative := !a.mIsNegative } else a

/-- Member `set(int64 v)` (lines 450-462). The negation `-v` is taken in `int64` and the result
converted to `uint64`. -/
def setInt64 (a : STAmount) (v : Int) : STAmount :=
  if v < 0 then { a with mIsNegative := true, mValue := toUInt64 (wrapSigned 64 (-v)) }
  else { a with mIsNegative := false, mValue := toUInt64 v }

/-- Member `set(int v)` (lines 464-476). The negation `-v` is taken in `int`, of 32 bits, and the
result converted to `uint64`. -/
def setInt (a : STAmount) (v : Int) : STAmount :=
  if v < 0 then { a with mIsNegative := true, mValue := toUInt64 (wrapSigned 32 (-v)) }
  else { a with mIsNegative := false, mValue := toUInt64 v }

end STAmount

/-- The currency id of "USD": the three ASCII letters at octets 12..14 (spec §6). -/
def currencyUSD : uint160 :=
  ⟨[0, 0, 0, 0, 0, 0, 0, 0, 0, 0, 0, 0, 0x55, 0x53, 0x44, 0, 0, 0, 0, 0], rfl⟩

/-- An issuer account used in the examples. -/
def accountGateway : uint160 :=
  ⟨[1, 2, 3, 4, 5, 6, 7, 8, 9, 10, 11, 12, 13, 14, 15, 16, 17, 18, 19, 20], rfl⟩

/-- A path set used in the examples: a path of one hop with account, currency and issuer, and a
path of one hop with an account only (spec §8). -/
def examplePathSet : STPathSet :=
  { fName := sfGeneric,
    value :=
      [⟨[STPathElement.ofIDs accountGateway currencyUSD accountGateway false]⟩,
       ⟨[STPathElement.ofIDs accountGateway u160_zero u160_zero false]⟩] }

/-! ## Lemmas on identifiers -/

theorem uint160.isZero_iff (u : uint160) : u.isZero = true ↔ u = u160_zero := by
  obtain ⟨bs, hbs⟩ := u
  simp only [uint160.isZero, u160_zero, List.all_eq_true, beq_iff_eq, uint160.mk.injEq]
  rw [List.eq_replicate_iff]
  exact ⟨fun h => ⟨hbs, h⟩, fun h => h.2⟩

/-! ## Construction and canonical form -/

/-- The bound `canonicalize` gives the first loop is enough: the loop ends because its condition
fails. -/
theorem STAmount.scaleUp_exit (n : Nat) (v : Nat) (off : Int)
    (hn : (off - cMinOffset).toNat ≤ n) :
    ¬ ((STAmount.scaleUp n v off).1 < cMinValue ∧ (STAmount.scaleUp n v off).2 > cMinOffset) := by
  induction n generalizing v off with
  | zero =>
    simp only [STAmount.scaleUp, cMinOffset] at *
    omega
  | succ k ih =>
    unfold STAmount.scaleUp
    by_cases hc : v < cMinValue ∧ off > cMinOffset
    · rw [if_pos hc]
      apply ih
      simp only [cMinOffset] at *
      omega
    · rw [if_neg hc]
      exact hc

/-- The bound `canonicalize` gives the second loop is enough: the loop ends because its condition
fails. -/
theorem STAmount.scaleDown_exit (n : Nat) (v : Nat) (off : Int) (hn : v ≤ n) :
    ¬ ((STAmount.scaleDown n v off).1 > cMaxValue) := by
  induction n generalizing v off with
  | zero =>
    simp only [STAmount.scaleDown, cMaxValue] at *
    omega
  | succ k ih =>
    unfold STAmount.scaleDown
    by_cases hc : v > cMaxValue
    · rw [if_pos hc]
      apply ih
      simp only [cMaxValue] at hc
      omega
    · rw [if_neg hc]
      exact hc

/-- The second loop never takes a mantissa from the band or above to below the band. -/
theorem STAmount.scaleDown_ge (n : Nat) (v : Nat) (off : Int) (hv : cMinValue ≤ v) :
    cMinValue ≤ (STAmount.scaleDown n v off).1 := by
  induction n generalizing v off with
  | zero => simpa [STAmount.scaleDown] using hv
  | succ k ih =>
    unfold STAmount.scaleDown
    by_cases hc : v > cMaxValue
    · rw [if_pos hc]
      apply ih
      simp only [cMaxValue, cMinValue] at *
      omega
    · rw [if_neg hc]
      exact hv

/-- The second loop leaves a mantissa that is not above the band alone. -/
theorem STAmount.scaleDown_of_le (n : Nat) (v : Nat) (off : Int) (hv : v ≤ cMaxValue) :
    STAmount.scaleDown n v off = (v, off) := by
  cases n with
  | zero => rfl
  | succ k =>
    unfold STAmount.scaleDown
    rw [if_neg (by omega)]

/-- What the modelled `canonicalize` establishes for an issued amount: when it does not fail,
the result is issued, keeps currency and issuer, and either has mantissa 0 or has mantissa and
exponent in their bands. -/
theorem STAmount.canonicalize_issued (a b : STAmount) (hc : a.mCurrency.isZero = false)
    (h : a.canonicalize = .ok b) :
    b.mIsNative = false ∧ b.mCurrency = a.mCurrency ∧ b.mIssuer = a.mIssuer ∧
    (b.mValue = 0 ∨ (cMinValue ≤ b.mValue ∧ b.mValue ≤ cMaxValue ∧
      cMinOffset ≤ b.mOffset ∧ b.mOffset ≤ cMaxOffset)) := by
  unfold STAmount.canonicalize at h
  simp only [hc, Bool.false_eq_true, if_false] at h
  by_cases h0 : a.mValue = 0
  · rw [if_pos h0] at h
    cases h
    exact ⟨rfl, rfl, rfl, Or.inl h0⟩
  · rw [if_neg h0] at h
    generalize STAmount.scaleUp (a.mOffset - cMinOffset).toNat a.mValue a.mOffset = up at h
    have hdnx := STAmount.scaleDown_exit up.1 up.1 up.2 (Nat.le_refl _)
    generalize STAmount.scaleDown up.1 up.1 up.2 = dn at h hdnx
    by_cases h1 : dn.2 < cMinOffset ∨ dn.1 < cMinValue
    · rw [if_pos h1] at h
      cases h
      exact ⟨rfl, rfl, rfl, Or.inl rfl⟩
    · rw [if_neg h1] at h
      by_cases h2 : dn.2 > cMaxOffset
      · rw [if_pos h2] at h
        cases h
      · rw [if_neg h2] at h
        cases h
        refine ⟨rfl, rfl, rfl, Or.inr ?_⟩
        show cMinValue ≤ dn.1 ∧ dn.1 ≤ cMaxValue ∧ cMinOffset ≤ dn.2 ∧ dn.2 ≤ cMaxOffset
        exact ⟨by omega, by omega, by omega, by omega⟩

/-- The first loop leaves a mantissa that is not below the band alone. -/
theorem STAmount.scaleUp_of_ge (n : Nat) (v : Nat) (off : Int) (hv : cMinValue ≤ v) :
    STAmount.scaleUp n v off = (v, off) := by
  cases n with
  | zero => rfl
  | succ k =>
    unfold STAmount.scaleUp
    rw [if_neg (by omega)]

/-- What the modelled `canonicalize` gives for an issued amount whose mantissa is not below the
band: when it does not fail, the result is issued, keeps currency and issuer, and either has
mantissa 0 or has mantissa and exponent in their bands. -/
theorem STAmount.canonicalize_issued_of_ge (a r : STAmount) (hc : a.mCurrency.isZero = false)
    (hv : cMinValue ≤ a.mValue) (h : a.canonicalize = .ok r) :
    r.mIsNative = false ∧ r.mCurrency = a.mCurrency ∧ r.mIssuer = a.mIssuer ∧
    (r.mValue = 0 ∨ (cMinValue ≤ r.mValue ∧ r.mValue ≤ cMaxValue ∧
      cMinOffset ≤ r.mOffset ∧ r.mOffset ≤ cMaxOffset)) := by
  have _ := hv
  exact STAmount.canonicalize_issued a r hc h

/-- The modelled `canonicalize` fails with `AmountOverflow` only. -/
theorem STAmount.canonicalize_error (a : STAmount) (e : Failure)
    (h : a.canonicalize = .error e) : e = .AmountOverflow := by
  unfold STAmount.canonicalize at h
  dsimp only at h
  split_ifs at h <;> (injection h with h; exact h.symm)

/-- The issued amount with mantissa 1 and exponent -96, which cannot be brought into the mantissa
band, is built as the zero amount. -/
theorem ofIssued_small_mantissa_at_cMinOffset :
    ∃ a, STAmount.ofIssued currencyUSD accountGateway 1 (-96) false = .ok a ∧
      a.mValue = 0 ∧ a.mOffset = -100 ∧ a.mIsNegative = false :=
  ⟨_, rfl, by decide⟩

/-- C1, on the modelled `canonicalize`: for a non-zero currency and every issuer, mantissa,
exponent and sign flag, if building the issued amount does not fail with `AmountOverflow`, then
an amount is built, and it either has mantissa 0 or has its mantissa from `cMinValue` to
`cMaxValue` and its exponent from `cMinOffset` to `cMaxOffset`. -/
theorem ofIssued_canonical (uCurrencyID uIssuerID : uint160) (uV : Nat) (iOff : Int)
    (bNegative : Bool) (hcur : uCurrencyID ≠ u160_zero)
    (hok : STAmount.ofIssued uCurrencyID uIssuerID uV iOff bNegative
      ≠ .error .AmountOverflow) :
    ∃ a, STAmount.ofIssued uCurrencyID uIssuerID uV iOff bNegative = .ok a ∧
      (a.mValue = 0 ∨ (cMinValue ≤ a.mValue ∧ a.mValue ≤ cMaxValue ∧
        cMinOffset ≤ a.mOffset ∧ a.mOffset ≤ cMaxOffset)) := by
  have hc : uCurrencyID.isZero = false := by
    cases hz : uCurrencyID.isZero with
    | false => rfl
    | true => exact absurd ((uint160.isZero_iff uCurrencyID).mp hz) hcur
  unfold STAmount.ofIssued at hok ⊢
  cases hres : STAmount.canonicalize
      { fName := sfGeneric, mCurrency := uCurrencyID, mIssuer := uIssuerID,
        mValue := uV, mOffset := iOff, mIsNative := false, mIsNegative := bNegative } with
  | error e =>
    have he := STAmount.canonicalize_error _ _ hres
    rw [hres, he] at hok
    exact absurd rfl hok
  | ok a =>
    exact ⟨a, rfl, (STAmount.canonicalize_issued _ a hc hres).2.2.2⟩

/-- Witness for C1: the issued USD amount built from mantissa 1 and exponent 0. -/
theorem ofIssued_canonical_witness :
    (currencyUSD ≠ u160_zero ∧
      STAmount.ofIssued currencyUSD accountGateway 1 0 false ≠ .error .AmountOverflow) ∧
    ∃ a, STAmount.ofIssued currencyUSD accountGateway 1 0 false = .ok a ∧
      (a.mValue = 0 ∨ (cMinValue ≤ a.mValue ∧ a.mValue ≤ cMaxValue ∧
        cMinOffset ≤ a.mOffset ∧ a.mOffset ≤ cMaxOffset)) :=
  ⟨⟨by decide, fun h => Except.noConfusion h⟩,
   ofIssued_canonical currencyUSD accountGateway 1 0 false (by decide)
     (fun h => Except.noConfusion h)⟩

/-- C2 as stated fails: the native constructor keeps the mantissa 18446744073709551615 it is
given, which is above `cMaxNative`. -/
theorem ofUInt64_above_cMaxNative :
    ¬ ((STAmount.ofUInt64 18446744073709551615 false).mOffset = 0 ∧
       (STAmount.ofUInt64 18446744073709551615 false).mValue ≤ cMaxNative) := by
  decide

/-- C2, amended: both native constructors give exponent 0 and keep the mantissa `v` they are
given, so the mantissa is at most `cMaxNative` exactly when `v` is. -/
theorem native_ctor_offset_and_value (n : SField) (v : Nat) (isNeg : Bool) :
    (STAmount.ofUInt64 v isNeg).mOffset = 0 ∧ (STAmount.ofUInt64 v isNeg).mValue = v ∧
    (STAmount.ofFieldUInt64 n v isNeg).mOffset = 0 ∧
    (STAmount.ofFieldUInt64 n v isNeg).mValue = v ∧
    ((STAmount.ofUInt64 v isNeg).mValue ≤ cMaxNative ↔ v ≤ cMaxNative) ∧
    ((STAmount.ofFieldUInt64 n v isNeg).mValue ≤ cMaxNative ↔ v ≤ cMaxNative) := by
  unfold STAmount.ofUInt64 STAmount.ofFieldUInt64
  by_cases hv : v = 0 <;> simp [hv]

/-- C3, at the input where the code departs from it: `STAmount(n, 0, true)` has mantissa 0 and
keeps the sign flag set, while `STAmount(0, true)` clears it. -/
theorem ofFieldUInt64_zero_keeps_sign :
    (STAmount.ofFieldUInt64 sfGeneric 0 true).mValue = 0 ∧
    (STAmount.ofFieldUInt64 sfGeneric 0 true).mIsNegative = true ∧
    (STAmount.ofUInt64 0 true).mIsNegative = false := by
  decide

/-- C4: after `zero()` the mantissa is 0, the sign flag is cleared, the exponent is -100 for an
issued amount and 0 for a native one, and currency, issuer, the native flag and the field are
those of the amount before. -/
theorem zero_spec (a : STAmount) :
    a.zero.mValue = 0 ∧ a.zero.mIsNegative = false ∧
    a.zero.mOffset = (if a.mIsNative = true then 0 else -100) ∧
    a.zero.mCurrency = a.mCurrency ∧ a.zero.mIssuer = a.mIssuer ∧
    a.zero.mIsNative = a.mIsNative ∧ a.zero.fName = a.fName := by
  simp [STAmount.zero]

/-- C5: after `zero(currency, issuer)` the amount holds that currency and issuer, is zero (mantissa
0, sign cleared), and is native exactly when the currency is the all-zero id; and `zero(template)`
with a template whose native flag agrees with its currency gives an amount whose native flag
agrees with its currency. -/
theorem zeroWith_zeroFrom_spec (a saTmpl : STAmount) (uCurrencyID uIssuerID : uint160)
    (h : saTmpl.mIsNative = true ↔ saTmpl.mCurrency = u160_zero) :
    (a.zeroWith uCurrencyID uIssuerID).mCurrency = uCurrencyID ∧
    (a.zeroWith uCurrencyID uIssuerID).mIssuer = uIssuerID ∧
    (a.zeroWith uCurrencyID uIssuerID).isZero = true ∧
    (a.zeroWith uCurrencyID uIssuerID).mIsNegative = false ∧
    ((a.zeroWith uCurrencyID uIssuerID).mIsNative = true ↔ uCurrencyID = u160_zero) ∧
    ((a.zeroFrom saTmpl).mIsNative = true ↔ (a.zeroFrom saTmpl).mCurrency = u160_zero) := by
  refine ⟨rfl, rfl, ?_, rfl, ?_, ?_⟩
  · simp [STAmount.zeroWith, STAmount.zero, STAmount.isZero]
  · simpa [STAmount.zeroWith, STAmount.zero] using uint160.isZero_iff uCurrencyID
  · simpa [STAmount.zeroFrom, STAmount.zero] using h

/-- Witness for C5: a native amount zeroed from an issued USD template. -/
theorem zeroWith_zeroFrom_spec_witness :
    (({ STAmount.ofUInt64 0 false with mCurrency := currencyUSD, mIsNative := false } :
        STAmount).mIsNative = true ↔
      ({ STAmount.ofUInt64 0 false with mCurrency := currencyUSD, mIsNative := false } :
        STAmount).mCurrency = u160_zero) ∧
    (((STAmount.ofUInt64 5 true).zeroFrom
        { STAmount.ofUInt64 0 false with mCurrency := currencyUSD, mIsNative := false }).mIsNative
          = true ↔
      ((STAmount.ofUInt64 5 true).zeroFrom
        { STAmount.ofUInt64 0 false with mCurrency := currencyUSD, mIsNative := false }).mCurrency
          = u160_zero) :=
  ⟨by decide,
   (zeroWith_zeroFrom_spec (STAmount.ofUInt64 5 true)
      { STAmount.ofUInt64 0 false with mCurrency := currencyUSD, mIsNative := false }
      currencyUSD accountGateway (by decide)).2.2.2.2.2⟩

/-- C10: `isLegalNet()` is true exactly when the amount is issued or its mantissa is below
100000000000000000. -/
theorem isLegalNet_iff (a : STAmount) :
    a.isLegalNet = true ↔ (a.mIsNative = false ∨ a.mValue < 100000000000000000) := by
  simp [STAmount.isLegalNet, cMaxNativeN]

/-! ## Wire form -/

/-- Fields that do not overlap are combined by bitwise or as by addition. -/
theorem or_fields_eq_add (p e m : Nat) (hp : p ≤ 1) (he : e < 256) (hm : m < 2 ^ 54) :
    2 ^ 63 ||| p * 2 ^ 62 ||| e <<< 54 ||| m = 2 ^ 63 + p * 2 ^ 62 + e * 2 ^ 54 + m := by
  have a1 : 2 ^ 63 * 1 + p * 2 ^ 62 = 2 ^ 63 * 1 ||| p * 2 ^ 62 :=
    Nat.mul_add_lt_is_or (by omega) 1
  have a2 : 2 ^ 62 * (2 + p) + e * 2 ^ 54 = 2 ^ 62 * (2 + p) ||| e * 2 ^ 54 :=
    Nat.mul_add_lt_is_or (by omega) (2 + p)
  have a3 : 2 ^ 54 * ((2 + p) * 256 + e) + m = 2 ^ 54 * ((2 + p) * 256 + e) ||| m :=
    Nat.mul_add_lt_is_or hm _
  have b1 : 2 ^ 63 ||| p * 2 ^ 62 = 2 ^ 62 * (2 + p) := by
    rw [← Nat.mul_one (2 ^ 63), ← a1]; omega
  have b2 : 2 ^ 62 * (2 + p) ||| e * 2 ^ 54 = 2 ^ 54 * ((2 + p) * 256 + e) := by
    rw [← a2]; omega
  rw [Nat.shiftLeft_eq, b1, b2, ← a3]
  omega

/-- C6 as stated fails: the mantissa 5000000000000000000 is within `cMaxNative`, is not below
`2 ^ 62`, and is not what the low 62 bits of `cPosNative | mantissa` hold. -/
theorem cMaxNative_not_within_62_bits :
    5000000000000000000 ≤ cMaxNative ∧ ¬ (5000000000000000000 < 2 ^ 62) ∧
    (cPosNative ||| 5000000000000000000) % 2 ^ 62 ≠ 5000000000000000000 := by
  decide

/-- C6, amended: a native mantissa within `cMaxNative` is below `2 ^ 63`, so or-ing it with
`cPosNative` leaves bit 63 (`cNotNative`) clear and sets bit 62; and when the mantissa is below
`cMaxNativeN` (legal on the network) it is below `2 ^ 62` and can be read back from the low 62
bits of the word. -/
theorem native_mantissa_bits (m : Nat) (h : m ≤ cMaxNative) :
    m < 2 ^ 63 ∧ (cPosNative ||| m).testBit 63 = false ∧ (cPosNative ||| m).testBit 62 = true ∧
    (m < cMaxNativeN → m < 2 ^ 62 ∧ (cPosNative ||| m) % 2 ^ 62 = m ∧
      (cPosNative ||| m) / 2 ^ 62 = 1) := by
  simp only [cMaxNative, cMaxNativeN] at *
  have h63 : m < 2 ^ 63 := by omega
  have hc : cPosNative < 2 ^ 63 := by decide
  refine ⟨h63, ?_, ?_, ?_⟩
  · exact Nat.testBit_lt_two_pow (Nat.or_lt_two_pow hc h63)
  · rw [Nat.testBit_or]
    have : cPosNative.testBit 62 = true := by decide
    simp [this]
  · intro hn
    have h62 : m < 2 ^ 62 := by omega
    have e : 2 ^ 62 * 1 + m = 2 ^ 62 * 1 ||| m := Nat.mul_add_lt_is_or h62 1
    have e2 : cPosNative ||| m = 2 ^ 62 + m := by
      rw [show cPosNative = 2 ^ 62 * 1 by decide, ← e]; omega
    rw [e2]
    omega

/-- Witness for C6 (amended): the mantissa 10000000. -/
theorem native_mantissa_bits_witness :
    10000000 ≤ cMaxNative ∧ (cPosNative ||| 10000000).testBit 63 = false :=
  ⟨by decide, (native_mantissa_bits 10000000 (by decide)).2.1⟩

/-- C7, on the modelled `add`: a non-negative native amount with mantissa `m` is serialized as the
eight octets of the word `cPosNative | m`, most significant first, and nothing else; for
`STAmount(10000000)` these are 40 00 00 00 00 98 96 80 and for `STAmount(0)` they are
40 00 00 00 00 00 00 00. -/
theorem add_native_nonneg (a : STAmount) (s : Serializer) (hnat : a.mIsNative = true)
    (hpos : a.mIsNegative = false) (hv : a.mValue < 2 ^ 64) :
    a.add s = s ++ be64 (cPosNative ||| a.mValue) ∧
    (be64 (cPosNative ||| a.mValue)).length = 8 ∧
    (STAmount.ofUInt64 10000000 false).add [] = [0x40, 0x00, 0x00, 0x00, 0x00, 0x98, 0x96, 0x80] ∧
    (STAmount.ofUInt64 0 false).add [] = [0x40, 0x00, 0x00, 0x00, 0x00, 0x00, 0x00, 0x00] := by
  refine ⟨?_, rfl, by decide, by decide⟩
  have hw : a.wireHeader = cPosNative ||| a.mValue := by
    unfold STAmount.wireHeader
    by_cases h0 : a.mValue = 0
    · simp [hnat, h0]
    · simp only [hnat, hpos, h0, if_true, if_false]
      exact Nat.mod_eq_of_lt (Nat.or_lt_two_pow (by decide) hv)
  simp [STAmount.add, hnat, Serializer.add64, hw]

/-- Witness for C7: the native amount 10000000 appended to an empty serializer. -/
theorem add_native_nonneg_witness :
    ((STAmount.ofUInt64 10000000 false).mIsNative = true ∧
      (STAmount.ofUInt64 10000000 false).mIsNegative = false ∧
      (STAmount.ofUInt64 10000000 false).mValue < 2 ^ 64) ∧
    (STAmount.ofUInt64 10000000 false).add [] =
      [] ++ be64 (cPosNative ||| (STAmount.ofUInt64 10000000 false).mValue) :=
  ⟨by decide,
   (add_native_nonneg (STAmount.ofUInt64 10000000 false) [] (by decide) (by decide)
      (by decide)).1⟩

/-- C8, on the modelled header: for a canonical non-zero issued amount the mantissa is below
`2 ^ 54` and the biased exponent lies in 1..177; the header word is
`cNotNative | (cPosNative if non-negative) | ((exponent + 97) << 54) | mantissa`, whose fields do
not overlap (the word is their sum); and decoding the word gives back the mantissa, the exponent
and the sign of an issued amount. -/
theorem wireHeader_issued_roundtrip (a : STAmount) (hnat : a.mIsNative = false)
    (hlo : cMinValue ≤ a.mValue) (hhi : a.mValue ≤ cMaxValue)
    (hmin : cMinOffset ≤ a.mOffset) (hmax : a.mOffset ≤ cMaxOffset) :
    a.mValue < 2 ^ 54 ∧ 1 ≤ a.mOffset + 97 ∧ a.mOffset + 97 ≤ 177 ∧
    a.wireHeader = (cNotNative ||| (if a.mIsNegative = true then 0 else cPosNative)
      ||| ((a.mOffset + 97).toNat <<< 54) ||| a.mValue) ∧
    a.wireHeader = cNotNative + (if a.mIsNegative = true then 0 else cPosNative)
      + (a.mOffset + 97).toNat * 2 ^ 54 + a.mValue ∧
    STAmount.decodeHeader a.wireHeader =
      .ok { isNative := false, isNegative := a.mIsNegative, mOffset := a.mOffset,
            mValue := a.mValue } := by
  simp only [cMinValue, cMaxValue, cMinOffset, cMaxOffset] at hlo hhi hmin hmax
  have hm : a.mValue < 2 ^ 54 := by omega
  obtain ⟨e, he⟩ : ∃ e : Nat, (e : Int) = a.mOffset + 97 := ⟨(a.mOffset + 97).toNat, by omega⟩
  have he1 : 1 ≤ e := by omega
  have he2 : e ≤ 177 := by omega
  have het : (a.mOffset + 97).toNat = e := by omega
  have hem : ((a.mOffset + 97) % 2 ^ 64).toNat = e := by omega
  obtain ⟨p, hp, hpv, hbit⟩ : ∃ p : Nat, p ≤ 1 ∧
      (if a.mIsNegative = true then 0 else cPosNative) = p * 2 ^ 62 ∧
      (decide (p = 1)) = !a.mIsNegative := by
    cases a.mIsNegative
    · exact ⟨1, by omega, by decide, by decide⟩
    · exact ⟨0, by omega, by decide, by decide⟩
  have hsum := or_fields_eq_add p e a.mValue hp (by omega) hm
  have hor : (cNotNative ||| (if a.mIsNegative = true then 0 else cPosNative)
      ||| ((a.mOffset + 97).toNat <<< 54) ||| a.mValue)
      = 2 ^ 63 + p * 2 ^ 62 + e * 2 ^ 54 + a.mValue := by
    rw [hpv, het, show cNotNative = 2 ^ 63 by decide]; exact hsum
  have hw : a.wireHeader = 2 ^ 63 + p * 2 ^ 62 + e * 2 ^ 54 + a.mValue := by
    unfold STAmount.wireHeader
    simp only [hnat, Bool.false_eq_true, if_false, hem]
    rw [← het, hor]
    omega
  refine ⟨hm, by omega, by omega, by rw [hw, hor], ?_, ?_⟩
  · rw [hw, hpv, het, show cNotNative = 2 ^ 63 by decide]
  · rw [hw]
    have t63 : (2 ^ 63 + p * 2 ^ 62 + e * 2 ^ 54 + a.mValue).testBit 63 = true := by
      rw [Nat.testBit_to_div_mod]; simp only [decide_eq_true_eq]; omega
    have t62 : (2 ^ 63 + p * 2 ^ 62 + e * 2 ^ 54 + a.mValue).testBit 62 = !a.mIsNegative := by
      rw [Nat.testBit_to_div_mod, ← hbit]
      congr 1
      apply propext
      constructor <;> intro h <;> omega
    have tv : (2 ^ 63 + p * 2 ^ 62 + e * 2 ^ 54 + a.mValue) % 2 ^ 54 = a.mValue := by omega
    have te : ((2 ^ 63 + p * 2 ^ 62 + e * 2 ^ 54 + a.mValue) >>> 54) % 256 = e := by
      rw [Nat.shiftRight_eq_div_pow]; omega
    have hv0 : a.mValue ≠ 0 := by omega
    have hoff : ((e : Nat) : Int) - 97 = a.mOffset := by omega
    unfold STAmount.decodeHeader
    simp only [t63, t62, tv, te, if_true, hv0, if_false, hoff, cMinValue, cMaxValue, cMinOffset,
      cMaxOffset, Bool.not_not]
    rw [if_pos ⟨hlo, hhi, hmin, hmax⟩]

/-- Witness for C8: the positive issued amount 1000000000000000 x 10^-15 in USD. -/
theorem wireHeader_issued_roundtrip_witness :
    ((false = false ∧ cMinValue ≤ 1000000000000000 ∧ 1000000000000000 ≤ cMaxValue ∧
      cMinOffset ≤ -15 ∧ (-15 : Int) ≤ cMaxOffset)) ∧
    STAmount.decodeHeader (STAmount.wireHeader
        ⟨sfGeneric, currencyUSD, accountGateway, 1000000000000000, -15, false, false⟩) =
      .ok { isNative := false, isNegative := false, mOffset := -15,
            mValue := 1000000000000000 } :=
  ⟨by decide,
   (wireHeader_issued_roundtrip
      ⟨sfGeneric, currencyUSD, accountGateway, 1000000000000000, -15, false, false⟩
      rfl (by decide) (by decide) (by decide) (by decide)).2.2.2.2.2⟩

/-- C9 as stated fails: the header of the positive issued amount 1000000000000000 x 10^-15 is not
D4 C3 8D 7E A4 C6 80 00. -/
theorem add_issued_one_not_D4C3 :
    STAmount.add ⟨sfGeneric, currencyUSD, accountGateway, 1000000000000000, -15, false, false⟩ []
      ≠ [0xD4, 0xC3, 0x8D, 0x7E, 0xA4, 0xC6, 0x80, 0x00]
          ++ currencyUSD.bytes ++ accountGateway.bytes := by
  decide

/-- C9, amended, on the modelled `add`: serializing the positive issued amount with mantissa
1000000000000000 and exponent -15 appends 48 octets: the header D4 83 8D 7E A4 C6 80 00, then the
20 octets of the currency id, then the 20 octets of the issuer id. -/
theorem add_issued_one (n : SField) (cur iss : uint160) (s : Serializer) :
    STAmount.add ⟨n, cur, iss, 1000000000000000, -15, false, false⟩ s
      = s ++ [0xD4, 0x83, 0x8D, 0x7E, 0xA4, 0xC6, 0x80, 0x00] ++ cur.bytes ++ iss.bytes ∧
    (STAmount.add ⟨n, cur, iss, 1000000000000000, -15, false, false⟩ s).length
      = s.length + 48 := by
  have hw : STAmount.wireHeader ⟨n, cur, iss, 1000000000000000, -15, false, false⟩
      = 0xD4838D7EA4C68000 := by
    simp only [STAmount.wireHeader, Bool.false_eq_true, if_false]
    decide
  have hb : be64 0xD4838D7EA4C68000 = [0xD4, 0x83, 0x8D, 0x7E, 0xA4, 0xC6, 0x80, 0x00] := by
    decide
  have h : STAmount.add ⟨n, cur, iss, 1000000000000000, -15, false, false⟩ s
      = s ++ [0xD4, 0x83, 0x8D, 0x7E, 0xA4, 0xC6, 0x80, 0x00] ++ cur.bytes ++ iss.bytes := by
    simp [STAmount.add, Serializer.add64, Serializer.add160, hw, hb]
  refine ⟨h, ?_⟩
  rw [h]
  simp [cur.size_eq, iss.size_eq]

/-! ## Path elements -/

/-- C11: the three-id constructor gives the type mask that is the bitwise or of `ACCOUNT (0x01)`
when the account is non-zero, `CURRENCY (0x10)` when the currency is non-zero or `forceCurrency`
is set, and `ISSUER (0x20)` when the issuer is non-zero, and keeps the three ids; the mask is 0x31
exactly when all three parts are present and 0x01 exactly when only the account is. -/
theorem ofIDs_mType (uAccountID uCurrencyID uIssuerID : uint160) (forceCurrency : Bool) :
    (STPathElement.ofIDs uAccountID uCurrencyID uIssuerID forceCurrency).mType =
      ((if uAccountID ≠ u160_zero then 0x01 else 0)
        ||| (if uCurrencyID ≠ u160_zero ∨ forceCurrency = true then 0x10 else 0)
        ||| (if uIssuerID ≠ u160_zero then 0x20 else 0)) ∧
    (STPathElement.ofIDs uAccountID uCurrencyID uIssuerID forceCurrency).mAccountID
      = uAccountID ∧
    (STPathElement.ofIDs uAccountID uCurrencyID uIssuerID forceCurrency).mCurrencyID
      = uCurrencyID ∧
    (STPathElement.ofIDs uAccountID uCurrencyID uIssuerID forceCurrency).mIssuerID
      = uIssuerID ∧
    ((STPathElement.ofIDs uAccountID uCurrencyID uIssuerID forceCurrency).mType = 0x31 ↔
      (uAccountID ≠ u160_zero ∧ (uCurrencyID ≠ u160_zero ∨ forceCurrency = true) ∧
        uIssuerID ≠ u160_zero)) ∧
    ((STPathElement.ofIDs uAccountID uCurrencyID uIssuerID forceCurrency).mType = 0x01 ↔
      (uAccountID ≠ u160_zero ∧ uCurrencyID = u160_zero ∧ forceCurrency = false ∧
        uIssuerID = u160_zero)) := by
  have ha : (uAccountID = u160_zero) = (uAccountID.isZero = true) :=
    propext (uint160.isZero_iff uAccountID).symm
  have hc : (uCurrencyID = u160_zero) = (uCurrencyID.isZero = true) :=
    propext (uint160.isZero_iff uCurrencyID).symm
  have hi : (uIssuerID = u160_zero) = (uIssuerID.isZero = true) :=
    propext (uint160.isZero_iff uIssuerID).symm
  refine ⟨?_, rfl, rfl, rfl, ?_, ?_⟩ <;>
  · simp only [STPathElement.ofIDs, STPathElement.typeAccount, STPathElement.typeCurrency,
      STPathElement.typeIssuer, ne_eq, ha, hc, hi]
    generalize uAccountID.isZero = a0
    generalize uCurrencyID.isZero = c0
    generalize uIssuerID.isZero = i0
    cases a0 <;> cases c0 <;> cases i0 <;> cases forceCurrency <;> decide

/-- C12: `isOffer()` is true exactly when the account id is all-zero, and `isAccount()` is true
exactly when `isOffer()` is false, whatever the type mask of the element. -/
theorem isOffer_isAccount_iff (e : STPathElement) :
    (e.isOffer = true ↔ e.mAccountID = u160_zero) ∧ (e.isAccount = true ↔ e.isOffer = false) := by
  refine ⟨uint160.isZero_iff e.mAccountID, ?_⟩
  simp [STPathElement.isAccount]

/-! ## Typed values -/

theorem all_zero_iff (bs : List Byte) :
    bs.all (fun b => b == 0) = true ↔ bs = List.replicate bs.length 0 := by
  simp only [List.all_eq_true, beq_iff_eq]
  rw [List.eq_replicate_iff]
  exact ⟨fun h => ⟨rfl, h⟩, fun h => h.2⟩

/-- C14: a not-present value (an object of the base class, under any field) has type id
`STI_NOTPRESENT`, appends nothing when serialized, is default, has empty text, and is equal to
another typed value exactly when that value is also not-present. -/
theorem notPresent_spec (x : SerializedType) (s : Serializer) (t : SerializedRef) :
    x.getSType = .STI_NOTPRESENT ∧ x.add s = s ∧ x.isDefault = true ∧ x.getText = "" ∧
    (x.eq t = true ↔ t.getSType = .STI_NOTPRESENT) ∧
    (t.getSType = .STI_NOTPRESENT ↔ ∃ y, t = .notPresent y) ∧
    (x.ne t = true ↔ ¬ x.eq t = true) := by
  refine ⟨rfl, rfl, rfl, rfl, ?_, ?_, ?_⟩
  · cases t <;> simp [SerializedType.eq, SerializedType.isEquivalent, SerializedType.getSType,
      SerializedRef.getSType, STUInt8.getSType, STUInt16.getSType, STUInt32.getSType,
      STUInt64.getSType, STAmount.getSType, STHash128.getSType, STHash160.getSType,
      STHash256.getSType, STVariableLength.getSType, STAccount.getSType, STPathSet.getSType,
      STVector256.getSType]
  · cases t <;> simp [SerializedRef.getSType, STUInt8.getSType, STUInt16.getSType,
      STUInt32.getSType, STUInt64.getSType, STAmount.getSType, STHash128.getSType,
      STHash160.getSType, STHash256.getSType, STVariableLength.getSType, STAccount.getSType,
      STPathSet.getSType, STVector256.getSType]
  · cases t <;> simp [SerializedType.ne, SerializedType.eq, SerializedType.isEquivalent,
      SerializedType.getSType, SerializedRef.getSType, STUInt8.getSType, STUInt16.getSType,
      STUInt32.getSType, STUInt64.getSType, STAmount.getSType, STHash128.getSType,
      STHash160.getSType, STHash256.getSType, STVariableLength.getSType, STAccount.getSType,
      STPathSet.getSType, STVector256.getSType]

/-- C15: `isDefault()` is true exactly when the payload is zero for the integers and the hashes,
and empty for the blob, the hash vector and the path set; for an amount exactly when mantissa,
currency and issuer are all zero. -/
theorem isDefault_iff (a : STUInt8) (b : STUInt16) (c : STUInt32) (d : STUInt64)
    (e : STHash128) (f : STHash160) (g : STHash256) (h : STVariableLength) (i : STVector256)
    (j : STPathSet) (k : STAmount) :
    (a.isDefault = true ↔ a.value = 0) ∧ (b.isDefault = true ↔ b.value = 0) ∧
    (c.isDefault = true ↔ c.value = 0) ∧ (d.isDefault = true ↔ d.value = 0) ∧
    (e.isDefault = true ↔ e.value.bytes = List.replicate 16 0) ∧
    (f.isDefault = true ↔ f.value = u160_zero) ∧
    (g.isDefault = true ↔ g.value.bytes = List.replicate 32 0) ∧
    (h.isDefault = true ↔ h.value = []) ∧ (i.isDefault = true ↔ i.mValue = []) ∧
    (j.isDefault = true ↔ j.value = []) ∧
    (k.isDefault = true ↔
      (k.mValue = 0 ∧ k.mCurrency = u160_zero ∧ k.mIssuer = u160_zero)) := by
  refine ⟨?_, ?_, ?_, ?_, ?_, ?_, ?_, ?_, ?_, ?_, ?_⟩
  · simp [STUInt8.isDefault]
  · simp [STUInt16.isDefault]
  · simp [STUInt32.isDefault]
  · simp [STUInt64.isDefault]
  · have := all_zero_iff e.value.bytes
    rw [e.value.size_eq] at this
    exact this
  · exact uint160.isZero_iff f.value
  · have := all_zero_iff g.value.bytes
    rw [g.value.size_eq] at this
    exact this
  · simp [STVariableLength.isDefault, List.isEmpty_iff]
  · simp [STVector256.isDefault, List.isEmpty_iff]
  · simp [STPathSet.isDefault, List.isEmpty_iff]
  · have h1 := uint160.isZero_iff k.mCurrency
    have h2 := uint160.isZero_iff k.mIssuer
    simp only [STAmount.isDefault, Bool.and_eq_true, beq_iff_eq, h1, h2]
    tauto

/-- C16, on the modelled serializer: for a field with type id `T < 16` and field value `F < 16`,
appending the field id of a `STUInt32` and then the value appends exactly five octets: the
octet `(T << 4) | F`, which is `16 * T + F`, and the four octets of the 32-bit value most
significant first; for `T = 2`, `F = 2` and the value 0x12345678 these are 22 12 34 56 78. -/
theorem addFieldID_add_uint32 (x : STUInt32) (s : Serializer) (hT : x.fName.fieldType < 16)
    (hF : x.fName.fieldValue < 16) (hv : x.value < 2 ^ 32) :
    x.add (x.toSerializedType.addFieldID s)
      = s ++ [byteOf ((x.fName.fieldType <<< 4) ||| x.fName.fieldValue)] ++ be32 x.value ∧
    (x.add (x.toSerializedType.addFieldID s)).length = s.length + 5 ∧
    (byteOf ((x.fName.fieldType <<< 4) ||| x.fName.fieldValue)).val
      = 16 * x.fName.fieldType + x.fName.fieldValue ∧
    ((be32 x.value).map (fun b => b.val)).foldl (fun acc b => acc * 256 + b) 0 = x.value ∧
    STUInt32.add ⟨⟨⟨2, 2, "Field"⟩⟩, 0x12345678⟩
        ((SerializedType.mk ⟨2, 2, "Field"⟩).addFieldID [])
      = [0x22, 0x12, 0x34, 0x56, 0x78] := by
  have h : x.add (x.toSerializedType.addFieldID s)
      = s ++ [byteOf ((x.fName.fieldType <<< 4) ||| x.fName.fieldValue)] ++ be32 x.value := by
    simp [STUInt32.add, SerializedType.addFieldID, Serializer.addFieldID, Serializer.add32, hT, hF]
  refine ⟨h, ?_, ?_, ?_, by decide⟩
  · rw [h]; simp [be32]
  · have e : 2 ^ 4 * x.fName.fieldType + x.fName.fieldValue
        = 2 ^ 4 * x.fName.fieldType ||| x.fName.fieldValue :=
      Nat.mul_add_lt_is_or (by omega) _
    simp only [byteOf, Nat.shiftLeft_eq]
    rw [Nat.mul_comm, ← e]
    omega
  · simp only [be32, byteOf, List.map, List.foldl, Nat.shiftRight_eq_div_pow]
    omega

/-- Witness for C16: the value 0x12345678 under the field with type id 2 and field value 2. -/
theorem addFieldID_add_uint32_witness :
    ((2 : Nat) < 16 ∧ (2 : Nat) < 16 ∧ (0x12345678 : Nat) < 2 ^ 32) ∧
    (STUInt32.add ⟨⟨⟨2, 2, "Field"⟩⟩, 0x12345678⟩
        ((SerializedType.mk ⟨2, 2, "Field"⟩).addFieldID [7])).length = [7].length + 5 :=
  ⟨by decide,
   (addFieldID_add_uint32 ⟨⟨⟨2, 2, "Field"⟩⟩, 0x12345678⟩ [7] (by decide) (by decide)
      (by decide)).2.1⟩

/-- What `STVariableLength::add` appends for a payload of 200 octets. -/
theorem addVL_200 (s : Serializer) (v : List Byte) (hlen : v.length = 200) :
    Serializer.addVL s v = .ok (s ++ [0xC1, 0x07] ++ v) := by
  unfold Serializer.addVL
  rw [hlen]
  simp only [show ¬ (200 ≤ 192) by decide, show (200 ≤ 12480) by decide, if_true, if_false]
  rfl

/-- C17 as stated fails: the length prefix of a payload of 200 zero octets does not start with
0xC0. -/
theorem add_vl_200_not_C0 :
    STVariableLength.add ⟨⟨sfGeneric⟩, List.replicate 200 0⟩ []
      ≠ .ok ([0xC0, 0x07] ++ List.replicate 200 0) := by
  rw [STVariableLength.add, addVL_200 [] _ (List.length_replicate 200 0)]
  intro h
  injection h with h
  have h2 : (0xC1 : Byte) :: ([0x07] ++ List.replicate 200 0)
      = 0xC0 :: ([0x07] ++ List.replicate 200 0) := h
  exact absurd (List.cons.inj h2).1 (by decide)

/-- C17, amended, on the modelled serializer: serializing a VL value whose payload is 200 octets
long appends a two-octet length prefix whose first octet is 0xC1 (193) and whose second octet
is 0x07, followed by the 200 payload octets. -/
theorem add_vl_200 (x : STVariableLength) (s : Serializer) (hlen : x.value.length = 200) :
    x.add s = .ok (s ++ [0xC1, 0x07] ++ x.value) :=
  addVL_200 s x.value hlen

/-- Witness for C17 (amended): a payload of 200 zero octets. -/
theorem add_vl_200_witness :
    (List.replicate 200 (0 : Byte)).length = 200 ∧
    STVariableLength.add ⟨⟨sfGeneric⟩, List.replicate 200 0⟩ []
      = .ok ([] ++ [0xC1, 0x07] ++ List.replicate 200 0) :=
  ⟨List.length_replicate 200 0,
   add_vl_200 ⟨⟨sfGeneric⟩, List.replicate 200 0⟩ [] (List.length_replicate 200 0)⟩

/-! ## Division and comparison of amounts -/

/-- C18, on the modelled `divide`: `divide(a, b, unit)` fails with `AmountDivideByZero` exactly
when the mantissa of `b` is zero, and then it produces no amount. -/
theorem divide_by_zero_iff (a b saUnit : STAmount) (uCurrencyID uIssuerID : uint160) :
    (STAmount.divide a b uCurrencyID uIssuerID = .error .AmountDivideByZero ↔ b.mValue = 0) ∧
    (STAmount.divideUnit a b saUnit = .error .AmountDivideByZero ↔ b.mValue = 0) ∧
    ¬ (b.mValue = 0 ∧ ∃ r, STAmount.divide a b uCurrencyID uIssuerID = .ok r) := by
  have key : ∀ cur iss : uint160, (STAmount.divide a b cur iss = .error .AmountDivideByZero
      ↔ b.mValue = 0) := by
    intro cur iss
    unfold STAmount.divide
    by_cases hb : b.mValue = 0
    · simp [hb]
    · rw [if_neg hb]
      constructor
      · intro h
        have := STAmount.canonicalize_error _ _ h
        cases this
      · intro h
        exact absurd h hb
  refine ⟨key _ _, key _ _, ?_⟩
  rintro ⟨hb, r, hr⟩
  rw [(key _ _).mpr hb] at hr
  cases hr

/-- C20, on the modelled `operator==`: two issued amounts with the same currency, mantissa,
exponent and sign are equal whatever their issuers, and every amount is equal to itself. -/
theorem eq_ignores_issuer (a b c : STAmount) (ha : a.mIsNative = false)
    (hb : b.mIsNative = false) (hcur : a.mCurrency = b.mCurrency) (hv : a.mValue = b.mValue)
    (ho : a.mOffset = b.mOffset) (hs : a.mIsNegative = b.mIsNegative) :
    a.eq b = .ok true ∧ c.eq c = .ok true := by
  constructor
  · simp [STAmount.eq, STAmount.isComparable, ha, hb, hcur, hv, ho, hs]
  · unfold STAmount.eq STAmount.isComparable
    cases c.mIsNative <;> simp

/-- Witness for C20: the same USD amount held with two different issuers. -/
theorem eq_ignores_issuer_witness :
    ((⟨sfGeneric, currencyUSD, accountGateway, 1000000000000000, -15, false, true⟩ :
        STAmount).mIssuer
      ≠ (⟨sfGeneric, currencyUSD, u160_zero, 1000000000000000, -15, false, true⟩ :
        STAmount).mIssuer) ∧
    STAmount.eq ⟨sfGeneric, currencyUSD, accountGateway, 1000000000000000, -15, false, true⟩
      ⟨sfGeneric, currencyUSD, u160_zero, 1000000000000000, -15, false, true⟩ = .ok true :=
  ⟨by decide,
   (eq_ignores_issuer
      ⟨sfGeneric, currencyUSD, accountGateway, 1000000000000000, -15, false, true⟩
      ⟨sfGeneric, currencyUSD, u160_zero, 1000000000000000, -15, false, true⟩
      (STAmount.ofUInt64 0 false) rfl rfl rfl rfl rfl rfl).1⟩

/-- C19, on the modelled `divide`: for operands with mantissas in the band from `cMinValue` to
`cMaxValue`, `divide(a, b, unit)` is the canonical form of the amount with mantissa
`floor(a.mantissa * 10^17 / b.mantissa)`, exponent `a.exponent - b.exponent - 17`, sign the XOR
of the signs and currency and issuer of the unit; that quotient lies from `10^16` to below
`10^18`; for an issued unit a result is issued in the currency and issuer of the unit with
mantissa 0 or mantissa and exponent in their bands; and dividing the issued amount 10 by the
issued amount 3 gives mantissa 3333333333333333 and exponent -15. -/
theorem divide_issued (a b : STAmount) (uCurrencyID uIssuerID : uint160)
    (ha1 : cMinValue ≤ a.mValue) (ha2 : a.mValue ≤ cMaxValue)
    (hb1 : cMinValue ≤ b.mValue) (hb2 : b.mValue ≤ cMaxValue) :
    STAmount.divide a b uCurrencyID uIssuerID
      = STAmount.canonicalize
          { fName := sfGeneric, mCurrency := uCurrencyID, mIssuer := uIssuerID,
            mValue := a.mValue * 10 ^ 17 / b.mValue, mOffset := a.mOffset - b.mOffset - 17,
            mIsNative := false, mIsNegative := xor a.mIsNegative b.mIsNegative } ∧
    10 ^ 16 ≤ a.mValue * 10 ^ 17 / b.mValue ∧ a.mValue * 10 ^ 17 / b.mValue < 10 ^ 18 ∧
    (∀ r, uCurrencyID.isZero = false → STAmount.divide a b uCurrencyID uIssuerID = .ok r →
      r.mIsNative = false ∧ r.mCurrency = uCurrencyID ∧ r.mIssuer = uIssuerID ∧
      (r.mValue = 0 ∨ (cMinValue ≤ r.mValue ∧ r.mValue ≤ cMaxValue ∧
        cMinOffset ≤ r.mOffset ∧ r.mOffset ≤ cMaxOffset))) ∧
    (∃ ten three r,
      STAmount.ofIssued currencyUSD accountGateway 10 0 false = .ok ten ∧
      STAmount.ofIssued currencyUSD accountGateway 3 0 false = .ok three ∧
      STAmount.divide ten three currencyUSD accountGateway = .ok r ∧
      r.mValue = 3333333333333333 ∧ r.mOffset = -15) := by
  simp only [cMinValue, cMaxValue] at ha1 ha2 hb1 hb2
  have hb0 : b.mValue ≠ 0 := by omega
  have hq1 : 10 ^ 16 ≤ a.mValue * 10 ^ 17 / b.mValue := by
    rw [Nat.le_div_iff_mul_le (by omega)]
    omega
  have hq2 : a.mValue * 10 ^ 17 / b.mValue < 10 ^ 18 := by
    rw [Nat.div_lt_iff_lt_mul (by omega)]
    omega
  have hx : (a.mIsNegative != b.mIsNegative) = xor a.mIsNegative b.mIsNegative := by
    cases a.mIsNegative <;> cases b.mIsNegative <;> rfl
  have heq : STAmount.divide a b uCurrencyID uIssuerID
      = STAmount.canonicalize
          { fName := sfGeneric, mCurrency := uCurrencyID, mIssuer := uIssuerID,
            mValue := a.mValue * 10 ^ 17 / b.mValue, mOffset := a.mOffset - b.mOffset - 17,
            mIsNative := false, mIsNegative := xor a.mIsNegative b.mIsNegative } := by
    unfold STAmount.divide
    rw [if_neg hb0, hx]
  refine ⟨heq, hq1, hq2, ?_, ?_⟩
  · intro r hc hr
    rw [heq] at hr
    exact STAmount.canonicalize_issued_of_ge _ r hc
      (by simp only [cMinValue]; omega) hr
  · exact ⟨_, _, _, rfl, rfl, rfl, by decide, by decide⟩

/-- Witness for C19: the canonical forms of the issued amounts 10 and 3. -/
theorem divide_issued_witness :
    (cMinValue ≤ 1000000000000000 ∧ 1000000000000000 ≤ cMaxValue ∧
      cMinValue ≤ 3000000000000000 ∧ 3000000000000000 ≤ cMaxValue) ∧
    (10 ^ 16 ≤ 1000000000000000 * 10 ^ 17 / 3000000000000000 ∧
      1000000000000000 * 10 ^ 17 / 3000000000000000 < 10 ^ 18) :=
  ⟨by decide,
   let h := divide_issued
      ⟨sfGeneric, currencyUSD, accountGateway, 1000000000000000, -14, false, false⟩
      ⟨sfGeneric, currencyUSD, accountGateway, 3000000000000000, -15, false, false⟩
      currencyUSD accountGateway (by decide) (by decide) (by decide) (by decide)
   ⟨h.2.1, h.2.2.1⟩⟩

/-! ## Round trip of a path set -/

theorem get160_append (u : uint160) (rest : List Byte) :
    get160 (u.bytes ++ rest) = .ok (u, rest) := by
  have hlen : 20 ≤ (u.bytes ++ rest).length := by
    rw [List.length_append, u.size_eq]; omega
  unfold get160
  rw [dif_pos hlen]
  have h1 : (u.bytes ++ rest).take 20 = u.bytes := by
    rw [← u.size_eq]; exact List.take_left' rfl
  have h2 : (u.bytes ++ rest).drop 20 = rest := by
    rw [← u.size_eq]; exact List.drop_left' rfl
  obtain ⟨bs, hbs⟩ := u
  simp only at h1 h2
  simp only [h1, h2]

theorem readID_append (k : Nat) (u : uint160) (rest : List Byte)
    (hz : k = 0 → u = u160_zero) :
    readID (k != 0) ((if k ≠ 0 then u.bytes else []) ++ rest) = .ok (u, rest) := by
  by_cases hk : k = 0
  · simp [readID, hk, hz hk]
  · simp [readID, hk, get160_append]

theorem byteOf_val_of_lt (n : Nat) (h : n < 256) : (byteOf n).val = n := by
  simp only [byteOf]
  omega

/-- One round of the parser on the octets of a canonical hop reads the hop back. -/
theorem STPathSet.constructLoop_element (e : STPathElement) (hc : e.canonical) (n : Nat)
    (rest : List Byte) (paths : List STPath) (path : List STPathElement) :
    STPathSet.constructLoop (n + 1) (STPathSet.emitElement e ++ rest) paths path
      = STPathSet.constructLoop n rest paths (path ++ [e]) := by
  obtain ⟨h0, hvalid, hacc, hcur, hiss⟩ := hc
  have hle : e.mType ≤ STPathElement.typeValidBits := by
    rw [← hvalid]; exact Nat.and_le_right
  have hle49 : e.mType ≤ 49 := hle
  have hb : (byteOf e.mType).val = e.mType := byteOf_val_of_lt _ (by omega)
  have h1 : ¬ e.mType = STPathElement.typeEnd := h0
  have h2 : ¬ e.mType = STPathElement.typeBoundary := by
    simp only [STPathElement.typeBoundary]; omega
  have h3 : ¬ (e.mType &&& (0xFF ^^^ STPathElement.typeValidBits) ≠ 0) := by
    have hz : STPathElement.typeValidBits &&& (0xFF ^^^ STPathElement.typeValidBits) = 0 := by
      decide
    rw [← hvalid, Nat.and_assoc, hz, Nat.and_zero]
    exact fun h => h rfl
  unfold STPathSet.emitElement
  rw [List.cons_append, STPathSet.constructLoop, hb, if_neg h1, if_neg h2, if_neg h3,
    List.append_assoc, List.append_assoc, readID_append _ _ _ hacc]
  simp only []
  rw [readID_append _ _ _ hcur]
  simp only []
  rw [readID_append _ _ _ hiss]

/-- The parser reads the hops of a path back, one round per hop. -/
theorem STPathSet.constructLoop_path (es : List STPathElement)
    (hall : ∀ e ∈ es, e.canonical) (n : Nat) (rest : List Byte) (paths : List STPath)
    (path : List STPathElement) :
    STPathSet.constructLoop (n + es.length) (STPathSet.emitPath es ++ rest) paths path
      = STPathSet.constructLoop n rest paths (path ++ es) := by
  induction es generalizing path with
  | nil => simp [STPathSet.emitPath]
  | cons e es ih =>
    rw [STPathSet.emitPath, List.append_assoc, List.length_cons, ← Nat.add_assoc,
      STPathSet.constructLoop_element e (hall e (List.mem_cons_self _ _)),
      ih (fun x hx => hall x (List.mem_cons_of_mem _ hx)), List.append_assoc]
    rfl

theorem STPathSet.constructLoop_end (n : Nat) (rest : List Byte) (paths : List STPath)
    (path : List STPathElement) :
    STPathSet.constructLoop (n + 1) (byteOf STPathElement.typeEnd :: rest) paths path
      = .ok (paths ++ [⟨path⟩], rest) := by
  rw [STPathSet.constructLoop]
  rfl

theorem STPathSet.constructLoop_boundary (n : Nat) (rest : List Byte) (paths : List STPath)
    (path : List STPathElement) :
    STPathSet.constructLoop (n + 1) (byteOf STPathElement.typeBoundary :: rest) paths path
      = STPathSet.constructLoop n rest (paths ++ [⟨path⟩]) [] := by
  rw [STPathSet.constructLoop]
  rfl

/-- The parser reads a non-empty sequence of paths of canonical hops back, given one round per
mask and marker. -/
theorem STPathSet.constructLoop_paths (ps : List STPath) (hne : ps ≠ [])
    (hall : ∀ p ∈ ps, ∀ e ∈ p.mPath, e.canonical) (n : Nat) (rest : List Byte)
    (paths : List STPath) :
    STPathSet.constructLoop (n + STPathSet.maskCount ps) (STPathSet.emitPaths ps ++ rest) paths []
      = .ok (paths ++ ps, rest) := by
  induction ps generalizing n paths with
  | nil => exact absurd rfl hne
  | cons p qs ih =>
    have hp := hall p (List.mem_cons_self _ _)
    cases qs with
    | nil =>
      rw [STPathSet.emitPaths, STPathSet.maskCount, STPathSet.maskCount, Nat.add_zero,
        List.append_assoc, Nat.add_comm p.mPath.length 1, ← Nat.add_assoc,
        STPathSet.constructLoop_path _ hp]
      exact STPathSet.constructLoop_end n rest paths _
    | cons q rs =>
      have ih2 := ih (List.cons_ne_nil q rs) (fun x hx => hall x (List.mem_cons_of_mem _ hx))
      rw [STPathSet.emitPaths, STPathSet.maskCount, List.append_assoc, List.append_assoc,
        show n + (p.mPath.length + 1 + STPathSet.maskCount (q :: rs))
          = (n + STPathSet.maskCount (q :: rs) + 1) + p.mPath.length by omega,
        STPathSet.constructLoop_path _ hp]
      rw [List.singleton_append, STPathSet.constructLoop_boundary, ih2, List.append_assoc]
      rfl

theorem STPathSet.length_emitPath (es : List STPathElement) :
    es.length ≤ (STPathSet.emitPath es).length := by
  induction es with
  | nil => simp [STPathSet.emitPath]
  | cons e es ih =>
    simp only [STPathSet.emitPath, STPathSet.emitElement, List.length_append, List.length_cons]
    omega

theorem STPathSet.maskCount_le_length (ps : List STPath) :
    STPathSet.maskCount ps ≤ (STPathSet.emitPaths ps).length := by
  induction ps with
  | nil => simp [STPathSet.maskCount]
  | cons p qs ih =>
    have hp := STPathSet.length_emitPath p.mPath
    cases qs with
    | nil =>
      simp only [STPathSet.emitPaths, STPathSet.maskCount, List.length_append,
        List.length_singleton]
      omega
    | cons q rs =>
      rw [STPathSet.emitPaths, STPathSet.maskCount]
      simp only [List.length_append, List.length_singleton]
      omega

/-- C13, on the modelled `add` and `construct`: for a path set with at least one path, no empty
path, and hops whose type mask is non-zero, has no bit outside `ACCOUNT|CURRENCY|ISSUER` and
whose ids not flagged by the mask are zero, parsing the octets emitted for the set, whatever
follows them, takes exactly those octets and gives back the paths of the set. -/
theorem pathSet_roundtrip (ps : STPathSet) (name : SField) (rest : List Byte)
    (hne : ps.value ≠ []) (hpaths : ∀ p ∈ ps.value, p.mPath ≠ [])
    (hhops : ∀ p ∈ ps.value, ∀ e ∈ p.mPath,
      e.mType ≠ 0 ∧ e.mType &&& STPathElement.typeValidBits = e.mType ∧
      (e.mType &&& STPathElement.typeAccount = 0 → e.mAccountID = u160_zero) ∧
      (e.mType &&& STPathElement.typeCurrency = 0 → e.mCurrencyID = u160_zero) ∧
      (e.mType &&& STPathElement.typeIssuer = 0 → e.mIssuerID = u160_zero)) :
    STPathSet.construct (ps.add [] ++ rest) name
      = .ok ({ fName := name, value := ps.value }, rest) ∧
    STPathSet.construct (ps.add [] ++ rest) ps.fName = .ok (ps, rest) := by
  have _ := hpaths
  have hfuel := STPathSet.maskCount_le_length ps.value
  obtain ⟨k, hk⟩ : ∃ k, (STPathSet.emitPaths ps.value ++ rest).length
      = k + STPathSet.maskCount ps.value :=
    ⟨(STPathSet.emitPaths ps.value ++ rest).length - STPathSet.maskCount ps.value, by
      rw [List.length_append] at *; omega⟩
  unfold STPathSet.construct STPathSet.add
  rw [List.nil_append, hk, STPathSet.constructLoop_paths ps.value hne hhops k rest []]
  exact ⟨rfl, rfl⟩

/-- Witness for C13: the example path set, followed by two more octets. -/
theorem pathSet_roundtrip_witness :
    (examplePathSet.value ≠ [] ∧ (∀ p ∈ examplePathSet.value, p.mPath ≠ []) ∧
      (∀ p ∈ examplePathSet.value, ∀ e ∈ p.mPath,
        e.mType ≠ 0 ∧ e.mType &&& STPathElement.typeValidBits = e.mType ∧
        (e.mType &&& STPathElement.typeAccount = 0 → e.mAccountID = u160_zero) ∧
        (e.mType &&& STPathElement.typeCurrency = 0 → e.mCurrencyID = u160_zero) ∧
        (e.mType &&& STPathElement.typeIssuer = 0 → e.mIssuerID = u160_zero))) ∧
    STPathSet.construct (examplePathSet.add [] ++ [0x07, 0x07]) examplePathSet.fName
      = .ok (examplePathSet, [0x07, 0x07]) :=
  ⟨by decide,
   (pathSet_roundtrip examplePathSet sfGeneric [0x07, 0x07] (by decide) (by decide)
      (by decide)).2⟩

/-! ## Accessors and mutators of an amount -/

/-- C21 as stated fails: the native amount -5 satisfies the invariants; after `setNValue(0)` its
mantissa is 0 with the sign flag still set, and after `setNValue(18446744073709551615)` its
mantissa is above `cMaxNative`. -/
theorem setNValue_breaks_invariants :
    ((STAmount.ofUInt64 5 true).mIsNative = true ∧ (STAmount.ofUInt64 5 true).mOffset = 0 ∧
      (STAmount.ofUInt64 5 true).mValue ≤ cMaxNative ∧
      ((STAmount.ofUInt64 5 true).mValue = 0 → (STAmount.ofUInt64 5 true).mIsNegative = false)) ∧
    ¬ (((STAmount.ofUInt64 5 true).setNValue 0).2.mValue = 0 →
        ((STAmount.ofUInt64 5 true).setNValue 0).2.mIsNegative = false) ∧
    ¬ (((STAmount.ofUInt64 5 true).setNValue 18446744073709551615).2.mValue ≤ cMaxNative) := by
  decide

/-- C21, amended: for a native amount that satisfies the amount invariants and a value `v` that
is at most `cMaxNative` and is non-zero unless the sign flag of the amount is clear,
`setNValue(v)` succeeds and the amount still satisfies them: exponent 0, mantissa at most
`cMaxNative`, and mantissa 0 only with the sign flag clear. -/
theorem setNValue_keeps_invariants (a : STAmount) (v : Nat) (hnat : a.mIsNative = true)
    (hoff : a.mOffset = 0) (hval : a.mValue ≤ cMaxNative)
    (hsign : a.mValue = 0 → a.mIsNegative = false)
    (hv : v ≤ cMaxNative) (hv0 : v ≠ 0 ∨ a.mIsNegative = false) :
    (a.setNValue v).1 = .ok () ∧ (a.setNValue v).2.mIsNative = true ∧
    (a.setNValue v).2.mOffset = 0 ∧ (a.setNValue v).2.mValue ≤ cMaxNative ∧
    ((a.setNValue v).2.mValue = 0 → (a.setNValue v).2.mIsNegative = false) := by
  have _ := hval
  have _ := hsign
  have hs : a.setNValue v = (.ok (), { a with mValue := v }) := by
    simp [STAmount.setNValue, hnat]
  rw [hs]
  refine ⟨rfl, hnat, hoff, hv, ?_⟩
  intro h0
  rcases hv0 with h | h
  · exact absurd h0 h
  · exact h

/-- Witness for C21 (amended): the native amount -5 set to 7. -/
theorem setNValue_keeps_invariants_witness :
    ((STAmount.ofUInt64 5 true).mIsNative = true ∧ (STAmount.ofUInt64 5 true).mOffset = 0 ∧
      (STAmount.ofUInt64 5 true).mValue ≤ cMaxNative ∧
      ((STAmount.ofUInt64 5 true).mValue = 0 → (STAmount.ofUInt64 5 true).mIsNegative = false) ∧
      7 ≤ cMaxNative ∧ (7 ≠ 0 ∨ (STAmount.ofUInt64 5 true).mIsNegative = false)) ∧
    ((STAmount.ofUInt64 5 true).setNValue 7).2.mValue ≤ cMaxNative :=
  ⟨by decide,
   (setNValue_keeps_invariants (STAmount.ofUInt64 5 true) 7 (by decide) (by decide) (by decide)
      (by decide) (by decide) (by decide)).2.2.2.1⟩

/-- C22: `getNValue()` returns the mantissa of a native amount and throws "not native" exactly
for an issued one; `setNValue(v)` on an issued amount throws that error and leaves the amount as
it was, and on a native amount succeeds and changes the mantissa to `v` and nothing else. -/
theorem getNValue_setNValue_spec (a : STAmount) (v : Nat) :
    a.getNValue = (if a.mIsNative = true then .ok a.mValue else .error notNative) ∧
    (a.getNValue = .error notNative ↔ a.mIsNative = false) ∧
    a.setNValue v
      = (if a.mIsNative = true then (.ok (), { a with mValue := v }) else (.error notNative, a)) ∧
    ((a.setNValue v).1 = .error notNative ↔ a.mIsNative = false) ∧
    (a.setNValue v).2.mValue = (if a.mIsNative = true then v else a.mValue) ∧
    (a.setNValue v).2.fName = a.fName ∧ (a.setNValue v).2.mCurrency = a.mCurrency ∧
    (a.setNValue v).2.mIssuer = a.mIssuer ∧ (a.setNValue v).2.mOffset = a.mOffset ∧
    (a.setNValue v).2.mIsNative = a.mIsNative ∧
    (a.setNValue v).2.mIsNegative = a.mIsNegative := by
  unfold STAmount.getNValue STAmount.setNValue
  rcases Bool.eq_false_or_eq_true a.mIsNative with h | h <;> simp [h]

/-- C23: `negate()` changes nothing but the sign flag, leaves an amount with mantissa 0 as it is,
applied twice gives the amount back, keeps a zero mantissa with a clear sign flag that way, and on
a non-zero amount swaps `isNegative()` and `isPositive()`. -/
theorem negate_spec (a : STAmount) :
    a.negate.fName = a.fName ∧ a.negate.mCurrency = a.mCurrency ∧
    a.negate.mIssuer = a.mIssuer ∧ a.negate.mValue = a.mValue ∧
    a.negate.mOffset = a.mOffset ∧ a.negate.mIsNative = a.mIsNative ∧
    a.negate.mIsNegative = (if a.mValue = 0 then a.mIsNegative else !a.mIsNegative) ∧
    (a.mValue = 0 → a.negate = a) ∧
    a.negate.negate = a ∧
    ((a.mValue = 0 → a.mIsNegative = false) →
      (a.negate.mValue = 0 → a.negate.mIsNegative = false)) ∧
    (a.mValue ≠ 0 →
      a.negate.isNegative = a.isPositive ∧ a.negate.isPositive = a.isNegative) := by
  unfold STAmount.negate STAmount.isNegative STAmount.isPositive STAmount.isZero
  by_cases h0 : a.mValue = 0
  · simp [h0]
  · simp [h0]

/-- C24: for an amount in which a zero mantissa comes with a clear sign flag, `isGEZero()` is
true exactly when `isNegative()` is false, that is, when the amount is zero or positive. -/
theorem isGEZero_iff (a : STAmount) (h : a.mValue = 0 → a.mIsNegative = false) :
    (a.isGEZero = true ↔ a.isNegative = false) ∧
    (a.isGEZero = true ↔ (a.isZero = true ∨ a.isPositive = true)) := by
  unfold STAmount.isGEZero STAmount.isNegative STAmount.isPositive STAmount.isZero
  by_cases h0 : a.mValue = 0
  · simp [h0, h h0]
  · simp [h0]

/-- Witness for C24: the native amount -5. -/
theorem isGEZero_iff_witness :
    ((STAmount.ofUInt64 5 true).mValue = 0 → (STAmount.ofUInt64 5 true).mIsNegative = false) ∧
    ((STAmount.ofUInt64 5 true).isGEZero = true ↔ (STAmount.ofUInt64 5 true).isNegative = false) :=
  ⟨by decide, (isGEZero_iff (STAmount.ofUInt64 5 true) (by decide)).1⟩

/-- What `set(int64)` does for every `int64`, the minimum included: the sign flag tells whether
`v` is negative and the mantissa is the absolute value of `v`. -/
theorem STAmount.setInt64_spec (a : STAmount) (v : Int) (h1 : -2 ^ 63 ≤ v) (h2 : v < 2 ^ 63) :
    (a.setInt64 v).mIsNegative = decide (v < 0) ∧ (a.setInt64 v).mValue = v.natAbs := by
  unfold STAmount.setInt64 toUInt64 wrapSigned
  by_cases hv : v < 0
  · simp only [hv, if_true, decide_True, true_and]
    omega
  · simp only [hv, if_false, decide_False, true_and]
    omega

/-- What `set(int)` does for every `int` above the minimum: the sign flag tells whether `v` is
negative and the mantissa is the absolute value of `v`. -/
theorem STAmount.setInt_spec (a : STAmount) (v : Int) (h1 : -2 ^ 31 < v) (h2 : v < 2 ^ 31) :
    (a.setInt v).mIsNegative = decide (v < 0) ∧ (a.setInt v).mValue = v.natAbs := by
  unfold STAmount.setInt toUInt64 wrapSigned
  by_cases hv : v < 0
  · simp only [hv, if_true, decide_True, true_and]
    omega
  · simp only [hv, if_false, decide_False, true_and]
    omega

/-- C25, at the input where the code departs from it: `set(int)` with the minimum `int`
-2147483648 sets the sign flag and the mantissa 18446744071562067968, which is not the absolute
value 2147483648; `set(int64)` with the minimum `int64` gives the absolute value
9223372036854775808. -/
theorem setInt_min_mantissa :
    ((STAmount.ofUInt64 0 false).setInt (-2147483648)).mIsNegative = true ∧
    ((STAmount.ofUInt64 0 false).setInt (-2147483648)).mValue = 18446744071562067968 ∧
    ((STAmount.ofUInt64 0 false).setInt (-2147483648)).mValue ≠ (-2147483648 : Int).natAbs ∧
    ((STAmount.ofUInt64 0 false).setInt64 (-9223372036854775808)).mValue
      = (-9223372036854775808 : Int).natAbs := by
  decide

/-- C26: the type mask of a path element built by the three-id constructor has no bit outside
`typeValidBits`, which is 0x31, so it is never the `BOUNDARY` marker 0xFF; it is the `END` marker
0x00 exactly when account, currency and issuer are all zero and `forceCurrency` is false; and
`isAccount()` is true exactly when the `ACCOUNT` bit of the mask is set. -/
theorem ofIDs_mask_valid (uAccountID uCurrencyID uIssuerID : uint160) (forceCurrency : Bool) :
    (STPathElement.ofIDs uAccountID uCurrencyID uIssuerID forceCurrency).mType
        &&& STPathElement.typeValidBits
      = (STPathElement.ofIDs uAccountID uCurrencyID uIssuerID forceCurrency).mType ∧
    STPathElement.typeValidBits = 0x31 ∧
    (STPathElement.ofIDs uAccountID uCurrencyID uIssuerID forceCurrency).mType
      ≠ STPathElement.typeBoundary ∧
    ((STPathElement.ofIDs uAccountID uCurrencyID uIssuerID forceCurrency).mType
        = STPathElement.typeEnd ↔
      (uAccountID = u160_zero ∧ uCurrencyID = u160_zero ∧ uIssuerID = u160_zero ∧
        forceCurrency = false)) ∧
    ((STPathElement.ofIDs uAccountID uCurrencyID uIssuerID forceCurrency).isAccount = true ↔
      (STPathElement.ofIDs uAccountID uCurrencyID uIssuerID forceCurrency).mType
        &&& STPathElement.typeAccount ≠ 0) := by
  have ha : (uAccountID = u160_zero) = (uAccountID.isZero = true) :=
    propext (uint160.isZero_iff uAccountID).symm
  have hc : (uCurrencyID = u160_zero) = (uCurrencyID.isZero = true) :=
    propext (uint160.isZero_iff uCurrencyID).symm
  have hi : (uIssuerID = u160_zero) = (uIssuerID.isZero = true) :=
    propext (uint160.isZero_iff uIssuerID).symm
  refine ⟨?_, by decide, ?_, ?_, ?_⟩ <;>
  · simp only [STPathElement.ofIDs, STPathElement.isAccount, STPathElement.isOffer,
      STPathElement.typeAccount, STPathElement.typeCurrency, STPathElement.typeIssuer,
      STPathElement.typeValidBits, STPathElement.typeBoundary, STPathElement.typeEnd, ne_eq,
      ha, hc, hi]
    generalize uAccountID.isZero = a0
    generalize uCurrencyID.isZero = c0
    generalize uIssuerID.isZero = i0
    cases a0 <;> cases c0 <;> cases i0 <;> cases forceCurrency <;> decide

end Ripple
